import Mathlib

/-!
Shallow embedding of the order-lifecycle reconciliation core of the
HunterZ trading agent (Python sources `config.py`, `utils.py`,
`order_utils.py`, `execution.py`, `risk_manager.py`, `lux_algo.py`,
`state.py`, `main.py`), together with theorems settling the frozen
claims about it.

Numbers are modelled as exact rationals (`ℚ`); Python float literals
such as `0.001` become the corresponding rationals.  Python `dict.get`
with a numeric default of `0` is modelled by a plain rational field
where `0` plays the role of "missing or zero" — the embedded code only
ever tests these fields for truthiness (non-zero) or compares them,
both of which coincide under this identification.  Fallible calls
return `Option`.
-/

set_option maxRecDepth 4000

namespace HunterZ

/-! ## Python primitives

Kernel-computable counterparts of the Python built-ins used by the
sources: `max`, `abs`, `str.strip`, `str.upper`, `c in s`.  They are
written with explicit `if`/structural recursion so that concrete
evaluations reduce under `decide`. -/

/-- Python `max(a, b)` on numbers. -/
def pyMax (a b : ℚ) : ℚ := if a ≤ b then b else a

/-- Python `abs(a)` on numbers. -/
def pyAbs (a : ℚ) : ℚ := if a < 0 then -a else a

/-- Python `c in s` for a single character. -/
def strContainsChar (s : String) (c : Char) : Bool :=
  s.toList.contains c

/-- Auxiliary for `strContainsSub`: is `needle` an infix of `l`? -/
def listInfixOf (needle : List Char) : List Char → Bool
  | [] => needle.isEmpty
  | c :: t => needle.isPrefixOf (c :: t) || listInfixOf needle t

/-- Python `needle in haystack` for strings (substring test). -/
def strContainsSub (haystack needle : String) : Bool :=
  listInfixOf needle.toList haystack.toList

/-- Python `str.strip()`: drop leading and trailing whitespace. -/
def pyStrip (s : String) : String :=
  String.mk (((s.toList.dropWhile Char.isWhitespace).reverse.dropWhile
    Char.isWhitespace).reverse)

/-- Python `str.upper()` (ASCII, which is all the sources use). -/
def pyUpper (s : String) : String :=
  String.mk (s.toList.map Char.toUpper)

/-! ## config.py -/

/-- `config. RR_RATIO` (the reward-to-risk multiple). -/
def RR_RATIO : ℚ := 2

/-- `config.RISK_PER_TRADE` (percent of balance). -/
def RISK_PER_TRADE : ℚ := 1

/-- `config.TP_SL_QUANTITY_TOLERANCE`. -/
def TP_SL_QUANTITY_TOLERANCE : ℚ := 1/100

/-- `config.TP_SL_PENDING_BACKOFF_SECONDS` (default 60). -/
def TP_SL_PENDING_BACKOFF_SECONDS : ℚ := 60

/-- `config.PENDING_ORDER_STALE_SECONDS` (default 900). -/
def PENDING_ORDER_STALE_SECONDS : ℚ := 900

/-! ## execution.py module constants -/

/-- `execution.MAX_ORDER_RETRIES`. -/
def MAX_ORDER_RETRIES : ℕ := 3

/-- `execution.PRICE_TOLERANCE_PCT` (0.1%). -/
def PRICE_TOLERANCE_PCT : ℚ := 1/1000

/-- `execution.QUANTITY_TOLERANCE_PCT` (1%). -/
def QUANTITY_TOLERANCE_PCT : ℚ := 1/100

/-! ## state.py module constants -/

/-- `state.MAX_BALANCE_HISTORY_POINTS`. -/
def MAX_BALANCE_HISTORY_POINTS : ℕ := 5000

/-- `state.MAX_RECONCILIATION_LOG_ENTRIES`. -/
def MAX_RECONCILIATION_LOG_ENTRIES : ℕ := 50

/-! ## Exchange order records

`execution.py` and `order_utils.py` consume ccxt order dicts.  The
fields actually read by the embedded functions are `id`, `symbol`,
`type`, `amount`, `remaining`, `price`, `stopPrice` (with its
snake-case alias `stop_price`, which the sources always resolve via an
`or`/fallback chain, so one field suffices) and `reduceOnly` (likewise
aliased with `reduce_only`).  A missing numeric key defaults to `0` in
the sources (`order.get(k, 0)`), hence plain `ℚ` fields with `0` for
"absent". -/

structure Order where
  id : String
  symbol : String
  otype : String
  side : String
  amount : ℚ
  remaining : ℚ
  price : ℚ
  stopPrice : ℚ
  reduceOnly : Bool
deriving Repr, DecidableEq

/-- Entries of `state.bot_state.exchange_open_orders` (shaped by
`state.update_exchange_open_orders` / `_update_state_after_order`):
keys `order_id`, `symbol`, `type`, `side`, `price`, `amount`,
`filled`, `remaining`, `status`, `reduce_only`, `stop_price`.
`stop_price` is `None` when the source order had no `stopPrice`;
as above `0` stands for missing-or-zero. -/
structure CachedOrder where
  order_id : String
  symbol : String
  otype : String
  price : ℚ
  amount : ℚ
  remaining : ℚ
  status : String
  reduce_only : Bool
  stop_price : ℚ
deriving Repr, DecidableEq

/-! ## utils.py -/

namespace Utils

/-- The set `utils.TP_SL_ORDER_TYPES`. -/
def TP_SL_ORDER_TYPES : List String :=
  ["STOP", "STOP_MARKET", "STOP_LIMIT",
   "TAKE_PROFIT", "TAKE_PROFIT_MARKET", "TAKE_PROFIT_LIMIT"]

/-- Python `resolved.split(':')[0]`: the prefix of the string before the
first `':'` (the whole string when there is no `':'`). -/
def splitColonHead (s : String) : String :=
  String.mk (s.toList.takeWhile (fun c => c ≠ ':'))

/-- `utils.normalize_symbol`: `if not symbol: return symbol`, strip
surrounding whitespace, and when a `':'` occurs keep only the part
before it.  Note this version does NOT change the case of the symbol. -/
def normalize_symbol (symbol : String) : String :=
  if symbol = "" then symbol
  else
    let resolved := pyStrip symbol
    if strContainsChar resolved ':' then splitColonHead resolved
    else resolved

end Utils

/-! ## order_utils.py -/

namespace OrderUtils

/-- `order_utils.normalize_symbol`: uppercase, then strip the futures
suffix after `':'`.  (No whitespace strip in this variant.) -/
def normalize_symbol (symbol : String) : String :=
  if symbol = "" then symbol
  else
    let upper := pyUpper symbol
    if strContainsChar upper ':' then Utils.splitColonHead upper
    else upper

/-- `order_utils.prices_are_equal`: true iff
`|p1 − p2| ≤ max(tick, tolerance_pct · max(|p1|,|p2|))`, where a
non-positive/missing tick falls back to `1e-8`. -/
def prices_are_equal (price1 price2 : ℚ) (tick_size : ℚ)
    (tolerance_pct : ℚ) : Bool :=
  let tick := if 0 < tick_size then tick_size else 1/100000000
  let ref_price := pyMax (pyAbs price1) (pyAbs price2)
  let pct_tolerance := if 0 < ref_price then ref_price * tolerance_pct else 0
  let tolerance := pyMax tick pct_tolerance
  decide (pyAbs (price1 - price2) ≤ tolerance)

/-- `order_utils.order_matches_target`: resolve the order's
stop-or-limit price through the chain
`stopPrice or stop_price or price` (falsy = 0 falls through), refuse a
falsy resolved price, then require the price to match within
`prices_are_equal` tolerance and the amount to match within
`target_amount · amount_tolerance`. -/
def order_matches_target (order : Order) (target_price target_amount : ℚ)
    (tick_size : ℚ) (amount_tolerance : ℚ) : Bool :=
  let order_price := if order.stopPrice ≠ 0 then order.stopPrice else order.price
  if order_price = 0 then false
  else
    let order_amount := order.amount
    let price_matches := prices_are_equal order_price target_price tick_size (1/1000)
    let amount_matches := decide (pyAbs (order_amount - target_amount) ≤ target_amount * amount_tolerance)
    price_matches && amount_matches

end OrderUtils

/-! ## execution.py: tolerance matching -/

namespace Execution

/-- `execution.approx_equal`: relative comparison against the larger
magnitude, with the zero cases handled first. -/
def approx_equal (a b : ℚ) (pct_tol : ℚ) : Bool :=
  if a = 0 ∧ b = 0 then true
  else if a = 0 ∨ b = 0 then false
  else decide (pyAbs (a - b) / pyMax (pyAbs a) (pyAbs b) ≤ pct_tol)

/-- `execution.order_matches_target`: resolve price via
`stopPrice or price or 0` and quantity via `amount or remaining or 0`,
refuse zero price or quantity, then compare both with `approx_equal`. -/
def order_matches_target (order : Order) (target_price target_qty : ℚ)
    (price_tol qty_tol : ℚ) : Bool :=
  let order_price := if order.stopPrice ≠ 0 then order.stopPrice
    else if order.price ≠ 0 then order.price else 0
  let order_qty := if order.amount ≠ 0 then order.amount
    else if order.remaining ≠ 0 then order.remaining else 0
  if order_price = 0 ∨ order_qty = 0 then false
  else approx_equal order_price target_price price_tol
    && approx_equal order_qty target_qty qty_tol

end Execution

/-! ## lux_algo.py / risk_manager.py data -/

/-- The `'type'` field of an order-block dict.  `lux_algo.detect_order_blocks`
only ever produces `'bullish'` and `'bearish'`. -/
inductive ObType where
  | bullish
  | bearish
deriving Repr, DecidableEq

/-- An order-block dict as built by `lux_algo.detect_order_blocks`:
`type`, `top`, `bottom`, `ob_top`, `ob_bottom`, `confirm_index`
(the `time` key, a candle timestamp never read by the embedded logic,
is represented by the pivot candle index). -/
structure OrderBlock where
  obType : ObType
  top : ℚ
  bottom : ℚ
  ob_top : ℚ
  ob_bottom : ℚ
  time : ℕ
  confirm_index : ℕ
deriving Repr, DecidableEq

/-- The trade-parameter dict returned by
`risk_manager.calculate_trade_params` (the `symbol` key is filled by
the caller and left out here). -/
structure TradeParams where
  side : String
  entry_price : ℚ
  stop_loss : ℚ
  take_profit : ℚ
  quantity : ℚ
deriving Repr, DecidableEq

/-! ## risk_manager.py -/

namespace RiskManager

/-- `risk_manager.calculate_trade_params` (the unused `current_price`
parameter is dropped).  Returns `none` when the risk per unit is
non-positive. -/
def calculate_trade_params (ob : OrderBlock) (balance : ℚ) : Option TradeParams :=
  let risk_amount := balance * ( RISK_PER_TRADE / 100)
  let sl_buffer : ℚ := 1/1000
  match ob.obType with
  | .bullish =>
    let entry_price := ob.ob_top
    let stop_loss := ob.ob_bottom * (1 - sl_buffer)
    let risk_per_unit := entry_price - stop_loss
    if risk_per_unit ≤ 0 then none
    else
      let take_profit := entry_price + risk_per_unit * RR_RATIO
      some { side := "buy", entry_price := entry_price, stop_loss := stop_loss,
             take_profit := take_profit, quantity := risk_amount / risk_per_unit }
  | .bearish =>
    let entry_price := ob.ob_bottom
    let stop_loss := ob.ob_top * (1 + sl_buffer)
    let risk_per_unit := stop_loss - entry_price
    if risk_per_unit ≤ 0 then none
    else
      let take_profit := entry_price - risk_per_unit * RR_RATIO
      some { side := "sell", entry_price := entry_price, stop_loss := stop_loss,
             take_profit := take_profit, quantity := risk_amount / risk_per_unit }

end RiskManager

/-- **C4.** For every bullish order block with `0 < ob_bottom ≤ ob_top`,
`calculate_trade_params` returns a plan with `side = buy`,
`entry = ob_top`, `stop_loss = ob_bottom·(1−0.001)`,
`take_profit = entry + RR_RATIO·(entry − stop_loss)` and
`quantity = balance·(RISK_PER_TRADE/100)/(entry − stop_loss)`,
satisfying `stop_loss < entry < take_profit`; it returns `none` exactly
when `entry − stop_loss ≤ 0`; and symmetrically for bearish blocks. -/
theorem calculate_trade_params_correct (ob : OrderBlock) (balance : ℚ) :
    (ob.obType = .bullish →
      ((RiskManager.calculate_trade_params ob balance = none ↔
          ob.ob_top - ob.ob_bottom * (1 - 1/1000) ≤ 0) ∧
        (0 < ob.ob_bottom → ob.ob_bottom ≤ ob.ob_top →
          ∃ p, RiskManager.calculate_trade_params ob balance = some p ∧
            p.side = "buy" ∧
            p.entry_price = ob.ob_top ∧
            p.stop_loss = ob.ob_bottom * (1 - 1/1000) ∧
            p.take_profit = p.entry_price + RR_RATIO * (p.entry_price - p.stop_loss) ∧
            p.quantity = balance * ( RISK_PER_TRADE / 100) / (p.entry_price - p.stop_loss) ∧
            p.stop_loss < p.entry_price ∧ p.entry_price < p.take_profit))) ∧
    (ob.obType = .bearish →
      ((RiskManager.calculate_trade_params ob balance = none ↔
          ob.ob_top * (1 + 1/1000) - ob.ob_bottom ≤ 0) ∧
        (0 < ob.ob_bottom → ob.ob_bottom ≤ ob.ob_top →
          ∃ p, RiskManager.calculate_trade_params ob balance = some p ∧
            p.side = "sell" ∧
            p.entry_price = ob.ob_bottom ∧
            p.stop_loss = ob.ob_top * (1 + 1/1000) ∧
            p.take_profit = p.entry_price - RR_RATIO * (p.stop_loss - p.entry_price) ∧
            p.quantity = balance * ( RISK_PER_TRADE / 100) / (p.stop_loss - p.entry_price) ∧
            p.take_profit < p.entry_price ∧ p.entry_price < p.stop_loss))) := by
  constructor
  · intro hb
    constructor
    · by_cases h : ob.ob_top - ob.ob_bottom * (1 - 1/1000) ≤ 0 <;>
        simp [RiskManager.calculate_trade_params, hb, h]
    · intro hpos hle
      have hrisk : 0 < ob.ob_top - ob.ob_bottom * (1 - 1/1000) := by nlinarith
      have hcalc : RiskManager.calculate_trade_params ob balance =
          some ⟨"buy", ob.ob_top, ob.ob_bottom * (1 - 1/1000),
            ob.ob_top + (ob.ob_top - ob.ob_bottom * (1 - 1/1000)) * RR_RATIO,
            balance * ( RISK_PER_TRADE / 100) / (ob.ob_top - ob.ob_bottom * (1 - 1/1000))⟩ := by
        simp only [RiskManager.calculate_trade_params, hb]
        rw [if_neg (not_le.mpr hrisk)]
      refine ⟨_, hcalc, rfl, rfl, rfl, by ring, rfl, ?_, ?_⟩
      · norm_num at hrisk ⊢
        nlinarith
      · simp only [ RR_RATIO]
        nlinarith
  · intro hb
    constructor
    · by_cases h : ob.ob_top * (1 + 1/1000) - ob.ob_bottom ≤ 0 <;>
        simp [RiskManager.calculate_trade_params, hb, h]
    · intro hpos hle
      have hrisk : 0 < ob.ob_top * (1 + 1/1000) - ob.ob_bottom := by nlinarith
      have hcalc : RiskManager.calculate_trade_params ob balance =
          some ⟨"sell", ob.ob_bottom, ob.ob_top * (1 + 1/1000),
            ob.ob_bottom - (ob.ob_top * (1 + 1/1000) - ob.ob_bottom) * RR_RATIO,
            balance * ( RISK_PER_TRADE / 100) / (ob.ob_top * (1 + 1/1000) - ob.ob_bottom)⟩ := by
        simp only [RiskManager.calculate_trade_params, hb]
        rw [if_neg (not_le.mpr hrisk)]
      refine ⟨_, hcalc, rfl, rfl, rfl, by ring, rfl, ?_, ?_⟩
      · simp only [ RR_RATIO]
        nlinarith
      · norm_num at hrisk ⊢
        nlinarith

/-- Witness for C4 at scenario S1: block `{top = 100, bottom = 98}`,
balance 1000 — the plan exists with the S1 numbers. -/
theorem calculate_trade_params_correct_witness :
    ∃ p, RiskManager.calculate_trade_params
        { obType := .bullish, top := 100, bottom := 98, ob_top := 100,
          ob_bottom := 98, time := 0, confirm_index := 0 } 1000 = some p ∧
      p.side = "buy" ∧
      p.entry_price = 100 ∧
      p.stop_loss = 98 * (1 - 1/1000) ∧
      p.take_profit = p.entry_price + RR_RATIO * (p.entry_price - p.stop_loss) ∧
      p.quantity = 1000 * ( RISK_PER_TRADE / 100) / (p.entry_price - p.stop_loss) ∧
      p.stop_loss < p.entry_price ∧ p.entry_price < p.take_profit := by
  have h := ((calculate_trade_params_correct
    { obType := .bullish, top := 100, bottom := 98, ob_top := 100,
      ob_bottom := 98, time := 0, confirm_index := 0 } 1000).1 rfl).2
    (by norm_num) (by norm_num)
  exact h

/-! ## lux_algo.py -/

/-- One OHLCV candle row of the dataframe. -/
structure Candle where
  copen : ℚ
  high : ℚ
  low : ℚ
  close : ℚ
  volume : ℚ
deriving Repr, DecidableEq

namespace LuxAlgo

/-- Python `min(a, b)`. -/
def pyMin (a b : ℚ) : ℚ := if a ≤ b then a else b

/-- `series.min()` over a list of values (`none` on an empty series,
matching pandas NaN). -/
def listMinQ : List ℚ → Option ℚ
  | [] => none
  | x :: xs =>
    some (match listMinQ xs with
      | none => x
      | some m => pyMin x m)

/-- `series.max()` over a list of values. -/
def listMaxQ : List ℚ → Option ℚ
  | [] => none
  | x :: xs =>
    some (match listMaxQ xs with
      | none => x
      | some m => pyMax x m)

/-- `df.iloc[a:b]` (with the in-range indices the detector uses). -/
def dfSlice (df : List Candle) (a b : ℕ) : List Candle :=
  (df.drop a).take (b - a)

/-- A padding row for (never exercised) out-of-range access. -/
def defaultCandle : Candle := ⟨0, 0, 0, 0, 0⟩

/-- `df.iloc[i]`. -/
def candleAt (df : List Candle) (i : ℕ) : Candle :=
  df.getD i defaultCandle

/-- `df['low'].rolling(window=length*10).min().shift(1)` at index `i`:
defined (`some`) only once a full window of `length*10` rows precedes
`i`; `none` models pandas NaN, and any comparison against NaN is
false. -/
def lower_band (df : List Candle) (length i : ℕ) : Option ℚ :=
  let period := length * 10
  if period ≤ i then listMinQ ((dfSlice df (i - period) i).map (fun c => c.low))
  else none

/-- `df['high'].rolling(window=length*10).max().shift(1)` at index `i`. -/
def upper_band (df : List Candle) (length i : ℕ) : Option ℚ :=
  let period := length * 10
  if period ≤ i then listMaxQ ((dfSlice df (i - period) i).map (fun c => c.high))
  else none

/-- `df['low'].iloc[i] == df['low'].iloc[i-length : i+length+1].min()`. -/
def is_pivot_low (df : List Candle) (length i : ℕ) : Bool :=
  match listMinQ ((dfSlice df (i - length) (i + length + 1)).map (fun c => c.low)) with
  | some m => decide ((candleAt df i).low = m)
  | none => false

/-- `df['high'].iloc[i] == df['high'].iloc[i-length : i+length+1].max()`. -/
def is_pivot_high (df : List Candle) (length i : ℕ) : Bool :=
  match listMaxQ ((dfSlice df (i - length) (i + length + 1)).map (fun c => c.high)) with
  | some m => decide ((candleAt df i).high = m)
  | none => false

/-- The bullish entry condition at candidate index `i`: pivot low and
`low[i] < lower_band[i]`. -/
def bullishCondAt (df : List Candle) (length i : ℕ) : Bool :=
  is_pivot_low df length i &&
    match lower_band df length i with
    | some b => decide ((candleAt df i).low < b)
    | none => false

/-- The bearish entry condition at candidate index `i`: pivot high and
`high[i] > upper_band[i]`. -/
def bearishCondAt (df : List Candle) (length i : ℕ) : Bool :=
  is_pivot_high df length i &&
    match upper_band df length i with
    | some b => decide (b < (candleAt df i).high)
    | none => false

/-- The bullish order-block dict appended at index `i`. -/
def bullishObAt (df : List Candle) (length i : ℕ) : OrderBlock :=
  let c := candleAt df i
  { obType := .bullish
    top := c.high
    bottom := c.low - (c.high - c.low) * (1/10)
    ob_top := c.high
    ob_bottom := c.low
    time := i
    confirm_index := i + length }

/-- The bearish order-block dict appended at index `i`. -/
def bearishObAt (df : List Candle) (length i : ℕ) : OrderBlock :=
  let c := candleAt df i
  { obType := .bearish
    top := c.high
    bottom := c.low
    ob_top := c.high
    ob_bottom := c.low
    time := i
    confirm_index := i + length }

/-- The `obs` list accumulated by the main loop of
`detect_order_blocks` over `i ∈ range(length, len(df) - length)`
(bullish appended before bearish at each index, as in the source). -/
def rawOrderBlocks (df : List Candle) (length : ℕ) : List OrderBlock :=
  ((List.range (df.length - 2 * length)).map (fun k => k + length)).flatMap
    (fun i =>
      (if bullishCondAt df length i then [bullishObAt df length i] else []) ++
      (if bearishCondAt df length i then [bearishObAt df length i] else []))

/-- The mitigation scan over `df.iloc[confirm_index+1:]`: a bullish
block is mitigated by any subsequent `low ≤ ob_top`, a bearish block by
any subsequent `high ≥ ob_bottom`. -/
def mitigatedOb (df : List Candle) (ob : OrderBlock) : Bool :=
  match ob.obType with
  | .bullish => (df.drop (ob.confirm_index + 1)).any (fun c => decide (c.low ≤ ob.ob_top))
  | .bearish => (df.drop (ob.confirm_index + 1)).any (fun c => decide (ob.ob_bottom ≤ c.high))

/-- `lux_algo.detect_order_blocks`: detected blocks whose mitigation
check keeps them (a block whose `confirm_index + 1` is at or past the
end of the window is kept outright, mirroring the
`start_check >= len(df)` branch). -/
def detect_order_blocks (df : List Candle) (length : ℕ) : List OrderBlock :=
  (rawOrderBlocks df length).filter (fun ob =>
    if df.length ≤ ob.confirm_index + 1 then true
    else ! mitigatedOb df ob)

end LuxAlgo

/-- Membership in a dropped prefix, phrased through absolute indices. -/
theorem mem_drop_iff_index {α : Type} (l : List α) (k : ℕ) (x : α) :
    x ∈ l.drop k ↔ ∃ j, k ≤ j ∧ ∃ h : j < l.length, l[j] = x := by
  rw [List.mem_iff_getElem]
  constructor
  · rintro ⟨i, hi, hget⟩
    have hlen : i < l.length - k := by simpa [List.length_drop] using hi
    refine ⟨k + i, Nat.le_add_right _ _, by omega, ?_⟩
    rw [← List.getElem_drop l]
    exact hget
  · rintro ⟨j, hkj, hj, hget⟩
    have hlen : j - k < (l.drop k).length := by
      rw [List.length_drop]; omega
    refine ⟨j - k, hlen, ?_⟩
    rw [List.getElem_drop l]
    have : k + (j - k) = j := by omega
    simp only [this]
    exact hget

/-- The mitigation scan finds a candle iff some candle at an index
strictly after `confirm_index` satisfies the mitigation condition. -/
theorem mitigatedOb_iff (df : List Candle) (ob : OrderBlock) :
    LuxAlgo.mitigatedOb df ob = true ↔
      ∃ j, ob.confirm_index < j ∧ ∃ h : j < df.length,
        (match ob.obType with
         | .bullish => df[j].low ≤ ob.ob_top
         | .bearish => ob.ob_bottom ≤ df[j].high) := by
  cases hty : ob.obType <;>
    simp only [LuxAlgo.mitigatedOb, hty, List.any_eq_true, decide_eq_true_eq] <;>
    constructor
  · rintro ⟨c, hc, hcond⟩
    obtain ⟨j, hkj, hj, rfl⟩ := (mem_drop_iff_index df (ob.confirm_index + 1) c).mp hc
    exact ⟨j, by omega, hj, hcond⟩
  · rintro ⟨j, hkj, hj, hcond⟩
    exact ⟨df[j], (mem_drop_iff_index df (ob.confirm_index + 1) _).mpr
      ⟨j, by omega, hj, rfl⟩, hcond⟩
  · rintro ⟨c, hc, hcond⟩
    obtain ⟨j, hkj, hj, rfl⟩ := (mem_drop_iff_index df (ob.confirm_index + 1) c).mp hc
    exact ⟨j, by omega, hj, hcond⟩
  · rintro ⟨j, hkj, hj, hcond⟩
    exact ⟨df[j], (mem_drop_iff_index df (ob.confirm_index + 1) _).mpr
      ⟨j, by omega, hj, rfl⟩, hcond⟩

/-- **C5.** `detect_order_blocks` keeps a detected block in its output
iff no candle at an index strictly after the block's `confirm_index`
mitigates it (bullish: some later `low ≤ ob_top`; bearish: some later
`high ≥ ob_bottom`); every detected block whose `confirm_index + 1` is
at or past the end of the candle window is retained. -/
theorem detect_order_blocks_mitigation (df : List Candle) (length : ℕ) (ob : OrderBlock) :
    (ob ∈ LuxAlgo.detect_order_blocks df length ↔
      ob ∈ LuxAlgo.rawOrderBlocks df length ∧
        ¬ ∃ j, ob.confirm_index < j ∧ ∃ h : j < df.length,
          (match ob.obType with
           | .bullish => df[j].low ≤ ob.ob_top
           | .bearish => ob.ob_bottom ≤ df[j].high)) ∧
    (ob ∈ LuxAlgo.rawOrderBlocks df length → df.length ≤ ob.confirm_index + 1 →
      ob ∈ LuxAlgo.detect_order_blocks df length) := by
  have hmit := mitigatedOb_iff df ob
  constructor
  · rw [LuxAlgo.detect_order_blocks, List.mem_filter]
    by_cases hlen : df.length ≤ ob.confirm_index + 1
    · simp only [hlen, if_pos, if_true]
      constructor
      · rintro ⟨hraw, -⟩
        refine ⟨hraw, ?_⟩
        rintro ⟨j, hj, hlt, -⟩
        omega
      · rintro ⟨hraw, -⟩
        exact ⟨hraw, trivial⟩
    · simp only [if_neg hlen, Bool.not_eq_true']
      constructor
      · rintro ⟨hraw, hkeep⟩
        refine ⟨hraw, fun hex => ?_⟩
        rw [hmit.mpr hex] at hkeep
        exact absurd hkeep (by simp)
      · rintro ⟨hraw, hnone⟩
        refine ⟨hraw, ?_⟩
        cases hval : LuxAlgo.mitigatedOb df ob
        · rfl
        · exact absurd (hmit.mp hval) hnone
  · intro hraw hlen
    rw [LuxAlgo.detect_order_blocks, List.mem_filter]
    exact ⟨hraw, by simp [hlen]⟩

/-- A 12-candle window whose only raw detection is a bullish block at
pivot index 10 (`confirm_index = 11`, one past the window end). -/
def dfWitnessC5 : List Candle :=
  List.replicate 10 ⟨2, 2, 2, 2, 0⟩ ++ [⟨1, 1, 1, 1, 0⟩] ++ [⟨2, 2, 2, 2, 0⟩]

/-- Witness for C5: in `dfWitnessC5` with `length = 1` the bullish
block confirmed at the final index is retained by the detector. -/
theorem detect_order_blocks_mitigation_witness :
    ({ obType := .bullish, top := 1, bottom := 1, ob_top := 1, ob_bottom := 1,
       time := 10, confirm_index := 11 } : OrderBlock) ∈
      LuxAlgo.detect_order_blocks dfWitnessC5 1 := by
  refine (detect_order_blocks_mitigation dfWitnessC5 1 _).2 ?_ ?_
  · with_unfolding_all decide
  · with_unfolding_all decide

/-! ## state.py -/

namespace State

/-- An entry of `bot_state.positions`, exactly as built by
`state.update_position` (plus the `take_profit`/`stop_loss` enrichment):
`symbol`, `side ∈ {LONG, SHORT}`, absolute `size`, `entry_price`,
`mark_price`, `unrealized_pnl`, `leverage`, `take_profit`,
`stop_loss` (entry time, a string never read by the embedded logic,
is omitted). -/
structure Position where
  symbol : String
  side : String
  size : ℚ
  entry_price : ℚ
  mark_price : ℚ
  unrealized_pnl : ℚ
  leverage : ℚ
  take_profit : Option ℚ
  stop_loss : Option ℚ
deriving Repr, DecidableEq

/-- A trade-history row.  Fields read with `trade.get(k, fallback)` in
the sources are `Option`s; `status` and `symbol` are always present. -/
structure Trade where
  symbol : String
  side : Option String
  entry_price : Option ℚ
  exit_price : Option ℚ
  size : Option ℚ
  pnl : Option ℚ
  status : String
  take_profit : Option ℚ
  stop_loss : Option ℚ
  entry_time : Option String
  exit_time : Option String
deriving Repr, DecidableEq

/-- Round half-to-even to an integer, the semantics of Python's
`round` (the sources call `round(pnl, 2)` on exactly representable
values; we model the ideal decimal banker's rounding). -/
def roundHalfToEven (x : ℚ) : ℤ :=
  let f := ⌊x⌋
  let r := x - f
  if r < 1/2 then f
  else if 1/2 < r then f + 1
  else if f % 2 = 0 then f else f + 1

/-- Python `round(x, 2)`. -/
def pyRound2 (x : ℚ) : ℚ := (roundHalfToEven (x * 100) : ℚ) / 100

/-- The loop guard of `_close_trade_in_history`: the row is for this
symbol and still OPEN. -/
def tradeIsOpenFor (symbol : String) (t : Trade) : Bool :=
  t.symbol == symbol && t.status == "OPEN"

/-- The update `_close_trade_in_history` applies to the matched row,
together with the raw (unrounded) pnl added to `total_pnl`:
`exit_price` prefers `mark_price` and falls back to the position's
`entry_price` when it is 0/unavailable; missing row fields fall back to
the old position's; pnl is `(exit − entry)·size` for LONG/BUY sides and
`(entry − exit)·size` otherwise, recorded rounded to 2 decimals. -/
def closeTradeUpdate (pos : Position) (now : String) (t : Trade) : Trade × ℚ :=
  let exit_price0 := pos.mark_price
  let exit_price := if exit_price0 = 0 then pos.entry_price else exit_price0
  let entry_price := t.entry_price.getD pos.entry_price
  let size := t.size.getD pos.size
  let side := t.side.getD pos.side
  let is_long := side == "LONG" || side == "BUY"
  let pnl := if is_long then (exit_price - entry_price) * size
    else (entry_price - exit_price) * size
  ({ t with exit_price := some exit_price
            pnl := some (pyRound2 pnl)
            status := "CLOSED"
            exit_time := some now }, pnl)

/-- `state._close_trade_in_history` as a pure function on the trade
history: update the first OPEN row for the symbol (rows are
newest-first, so this is the most recent open trade) and report the raw
pnl added to `total_pnl`; leave the history unchanged when no row
matches. -/
def close_trade_in_history (symbol : String) (pos : Position) (now : String) :
    List Trade → List Trade × ℚ
  | [] => ([], 0)
  | t :: rest =>
    if tradeIsOpenFor symbol t then
      let u := closeTradeUpdate pos now t
      (u.1 :: rest, u.2)
    else
      let r := close_trade_in_history symbol pos now rest
      (t :: r.1, r.2)

/-- An entry of `bot_state.reconciliation_log` (inserted either by
`add_reconciliation_log` or by `add_forced_closure_log`; `details` is
opaque here). -/
inductive ReconLogEntry where
  | log (timestamp action details : String)
  | forced (timestamp symbol reason details : String)
deriving Repr, DecidableEq

/-- A point of `bot_state.balance_history`. -/
structure BalancePoint where
  timestamp : String
  total_balance : ℚ
  free_balance : ℚ
  used_balance : ℚ
  total_pnl : ℚ
deriving Repr, DecidableEq

/-- The slice of `bot_state` touched by the bounded-container
operations of C9. -/
structure StoreState where
  reconciliation_log : List ReconLogEntry
  balance_history : List BalancePoint
  total_balance : ℚ
  free_balance : ℚ
  balance : ℚ
  total_pnl : ℚ
  last_update : String
deriving Repr, DecidableEq

/-- `state.add_reconciliation_log`: head-insert, then keep only the
first `MAX_RECONCILIATION_LOG_ENTRIES` entries. -/
def add_reconciliation_log (s : StoreState) (now action details : String) : StoreState :=
  let entries := ReconLogEntry.log now action details :: s.reconciliation_log
  { s with reconciliation_log := entries.take MAX_RECONCILIATION_LOG_ENTRIES }

/-- `state.add_forced_closure_log`: head-insert of a forced-closure
entry, truncated the same way. -/
def add_forced_closure_log (s : StoreState) (now symbol reason details : String) : StoreState :=
  let entries := ReconLogEntry.forced now symbol reason details :: s.reconciliation_log
  { s with reconciliation_log := entries.take MAX_RECONCILIATION_LOG_ENTRIES }

/-- `state.update_full_balance`: update the balance mirror, append a
history point, and trim to the last `MAX_BALANCE_HISTORY_POINTS`
(`history[-MAX:]`). -/
def update_full_balance (s : StoreState) (now : String) (total free used : ℚ) : StoreState :=
  let hist := s.balance_history ++
    [{ timestamp := now, total_balance := total, free_balance := free,
       used_balance := used, total_pnl := s.total_pnl }]
  let hist := if MAX_BALANCE_HISTORY_POINTS < hist.length
    then hist.drop (hist.length - MAX_BALANCE_HISTORY_POINTS) else hist
  { s with total_balance := total, free_balance := free, balance := total,
           last_update := now, balance_history := hist }

/-- The appending operations named by C9. -/
inductive StoreOp where
  | addReconLog (now action details : String)
  | addForcedClosureLog (now symbol reason details : String)
  | updateFullBalance (now : String) (total free used : ℚ)

/-- Apply one store operation. -/
def applyStoreOp (s : StoreState) : StoreOp → StoreState
  | .addReconLog now action details => add_reconciliation_log s now action details
  | .addForcedClosureLog now symbol reason details =>
      add_forced_closure_log s now symbol reason details
  | .updateFullBalance now total free used => update_full_balance s now total free used

/-- Apply a sequence of store operations in order. -/
def applyStoreOps (s : StoreState) : List StoreOp → StoreState
  | [] => s
  | op :: rest => applyStoreOps (applyStoreOp s op) rest

end State

/-- **C8 (amended).** When a position is removed, the first OPEN
trade-history row for its symbol is closed with
`exit_price = mark_price` (falling back to the position's entry price
when the mark price is 0/unavailable), and the recorded `pnl` is the
side-adjusted product `(exit − entry)·size` (LONG/BUY) or
`(entry − exit)·size` (SHORT/SELL) **rounded to 2 decimal places**;
the raw unrounded product is what flows into `total_pnl`. -/
theorem close_trade_in_history_pnl (pre rest : List State.Trade) (t : State.Trade)
    (pos : State.Position) (symbol now : String)
    (hpre : ∀ u ∈ pre, State.tradeIsOpenFor symbol u = false)
    (ht : State.tradeIsOpenFor symbol t = true) :
    State.close_trade_in_history symbol pos now (pre ++ t :: rest) =
      (pre ++ ({ t with
          exit_price := some (if pos.mark_price = 0 then pos.entry_price else pos.mark_price)
          pnl := some (State.pyRound2
            (if (t.side.getD pos.side) == "LONG" || (t.side.getD pos.side) == "BUY"
             then ((if pos.mark_price = 0 then pos.entry_price else pos.mark_price) -
                t.entry_price.getD pos.entry_price) * t.size.getD pos.size
             else (t.entry_price.getD pos.entry_price -
                (if pos.mark_price = 0 then pos.entry_price else pos.mark_price)) *
                  t.size.getD pos.size))
          status := "CLOSED"
          exit_time := some now } :: rest),
        if (t.side.getD pos.side) == "LONG" || (t.side.getD pos.side) == "BUY"
        then ((if pos.mark_price = 0 then pos.entry_price else pos.mark_price) -
            t.entry_price.getD pos.entry_price) * t.size.getD pos.size
        else (t.entry_price.getD pos.entry_price -
            (if pos.mark_price = 0 then pos.entry_price else pos.mark_price)) *
              t.size.getD pos.size) := by
  induction pre with
  | nil =>
    simp [State.close_trade_in_history, ht, State.closeTradeUpdate]
  | cons u pre ih =>
    have hu : State.tradeIsOpenFor symbol u = false := hpre u (by simp)
    have ih' := ih (fun v hv => hpre v (by simp [hv]))
    simp only [List.cons_append, State.close_trade_in_history, hu, Bool.false_eq_true,
      if_false, List.append_eq]
    rw [ih']

/-- The concrete OPEN LONG row used in the C8 instances. -/
def tradeC8 : State.Trade :=
  { symbol := "BTC/USDC", side := some "LONG", entry_price := some 100,
    exit_price := none, size := some 1, pnl := none, status := "OPEN",
    take_profit := none, stop_loss := none, entry_time := none, exit_time := none }

/-- The closed position used in the C8 counterexample: mark price
`100.125` (exactly representable), entry `100`, size `1`. -/
def posC8 : State.Position :=
  { symbol := "BTC/USDC", side := "LONG", size := 1, entry_price := 100,
    mark_price := 801/8, unrealized_pnl := 0, leverage := 1,
    take_profit := none, stop_loss := none }

/-- **C8, counterexample.** At mark `100.125` the recorded pnl is the
rounded `0.12`, not the exact product `0.125`: the claim's "equals
exactly" fails. -/
theorem close_trade_in_history_exact_pnl_counterexample :
    State.close_trade_in_history "BTC/USDC" posC8 "t1" [tradeC8] =
      ([{ tradeC8 with
          exit_price := some (801/8)
          pnl := some (3/25)
          status := "CLOSED"
          exit_time := some "t1" }], 1/8) ∧
    (3/25 : ℚ) ≠ ((801/8 : ℚ) - 100) * 1 := by
  constructor
  · norm_num [State.close_trade_in_history, State.tradeIsOpenFor, State.closeTradeUpdate,
      State.pyRound2, State.roundHalfToEven, posC8, tradeC8]
  · norm_num

/-- The concrete closed position for the C8 witness: mark `110`. -/
def posC8w : State.Position :=
  { symbol := "BTC/USDC", side := "LONG", size := 2, entry_price := 100,
    mark_price := 110, unrealized_pnl := 0, leverage := 1,
    take_profit := none, stop_loss := none }

/-- The concrete OPEN row for the C8 witness: size 2, entry 100. -/
def tradeC8w : State.Trade :=
  { tradeC8 with size := some 2 }

/-- Witness for the amended C8: closing at mark 110 records
`pnl = (110 − 100)·2 = 20` (rounding is the identity here). -/
theorem close_trade_in_history_pnl_witness :
    State.close_trade_in_history "BTC/USDC" posC8w "t1" [tradeC8w] =
      ([{ tradeC8w with
          exit_price := some 110
          pnl := some 20
          status := "CLOSED"
          exit_time := some "t1" }], 20) := by
  have h := close_trade_in_history_pnl [] [] tradeC8w posC8w "BTC/USDC" "t1"
    (by simp) (by decide)
  simp only [List.nil_append] at h
  rw [h]
  norm_num [State.pyRound2, State.roundHalfToEven, posC8w, tradeC8w, tradeC8]

/-- Per-operation bound preservation for the store containers. -/
theorem applyStoreOp_bounds (s : State.StoreState) (op : State.StoreOp)
    (h1 : s.reconciliation_log.length ≤ MAX_RECONCILIATION_LOG_ENTRIES)
    (h2 : s.balance_history.length ≤ MAX_BALANCE_HISTORY_POINTS) :
    (State.applyStoreOp s op).reconciliation_log.length ≤ MAX_RECONCILIATION_LOG_ENTRIES ∧
    (State.applyStoreOp s op).balance_history.length ≤ MAX_BALANCE_HISTORY_POINTS := by
  cases op with
  | addReconLog now action details =>
    refine ⟨?_, h2⟩
    simp [State.applyStoreOp, State.add_reconciliation_log, List.length_take]
  | addForcedClosureLog now symbol reason details =>
    refine ⟨?_, h2⟩
    simp [State.applyStoreOp, State.add_forced_closure_log, List.length_take]
  | updateFullBalance now total free used =>
    refine ⟨h1, ?_⟩
    simp only [State.applyStoreOp, State.update_full_balance]
    split
    · simp only [List.length_drop]
      omega
    · next h =>
      omega

/-- **C9.** Starting from a store whose reconciliation log holds at
most 50 entries and whose balance history holds at most 5000 points,
no sequence of `add_reconciliation_log` / `add_forced_closure_log` /
`update_full_balance` operations ever exceeds those bounds. -/
theorem store_log_bounds (ops : List State.StoreOp) (s : State.StoreState)
    (h1 : s.reconciliation_log.length ≤ MAX_RECONCILIATION_LOG_ENTRIES)
    (h2 : s.balance_history.length ≤ MAX_BALANCE_HISTORY_POINTS) :
    (State.applyStoreOps s ops).reconciliation_log.length ≤ MAX_RECONCILIATION_LOG_ENTRIES ∧
    (State.applyStoreOps s ops).balance_history.length ≤ MAX_BALANCE_HISTORY_POINTS := by
  induction ops generalizing s with
  | nil => exact ⟨h1, h2⟩
  | cons op rest ih =>
    obtain ⟨g1, g2⟩ := applyStoreOp_bounds s op h1 h2
    exact ih (State.applyStoreOp s op) g1 g2

/-- Witness for C9: from the empty store, a log append, a forced
closure and a balance update stay within the caps. -/
theorem store_log_bounds_witness :
    (State.applyStoreOps
        { reconciliation_log := [], balance_history := [], total_balance := 0,
          free_balance := 0, balance := 0, total_pnl := 0, last_update := "" }
        [State.StoreOp.addReconLog "t1" "a" "d",
         State.StoreOp.addForcedClosureLog "t2" "BTC/USDC" "tp_breach" "d",
         State.StoreOp.updateFullBalance "t3" 100 60 40]).reconciliation_log.length ≤
      MAX_RECONCILIATION_LOG_ENTRIES ∧
    (State.applyStoreOps
        { reconciliation_log := [], balance_history := [], total_balance := 0,
          free_balance := 0, balance := 0, total_pnl := 0, last_update := "" }
        [State.StoreOp.addReconLog "t1" "a" "d",
         State.StoreOp.addForcedClosureLog "t2" "BTC/USDC" "tp_breach" "d",
         State.StoreOp.updateFullBalance "t3" 100 60 40]).balance_history.length ≤
      MAX_BALANCE_HISTORY_POINTS := by
  exact store_log_bounds _ _ (by decide) (by decide)

/-! ## state.py: pending orders and staleness -/

namespace State

/-- A pending-order entry of `bot_state.pending_orders` (keyed by
symbol in the store).  Creation timestamps are modelled as rational
seconds; `created_at`/`timestamp` are `Option`s because persisted
structures may predate those keys and the ISO parse can fail (both
read paths treat that as "skip"). -/
structure PendingOrder where
  order_id : String
  created_at : Option ℚ
  timestamp : Option ℚ
deriving Repr, DecidableEq

/-- `state.get_stale_pending_orders`: the pending orders whose
resolved creation time (`created_at or timestamp`) is present and
whose age `now − created` strictly exceeds the threshold, paired with
the computed `age_seconds`.  Entries without a usable timestamp are
skipped. -/
def get_stale_pending_orders (pending : List (String × PendingOrder))
    (now stale_threshold_seconds : ℚ) : List (String × PendingOrder × ℚ) :=
  pending.filterMap (fun e =>
    match e.2.created_at <|> e.2.timestamp with
    | none => none
    | some created =>
      let age_seconds := now - created
      if stale_threshold_seconds < age_seconds then some (e.1, e.2, age_seconds)
      else none)

/-- `state.remove_pending_order` on the store list. -/
def remove_pending_order (pending : List (String × PendingOrder)) (symbol : String) :
    List (String × PendingOrder) :=
  pending.filter (fun e => e.1 ≠ symbol)

end State

/-! ## main.py: stale pending-order handling -/

namespace Main

/-- The outcome of the `client.cancel_order` attempt for one stale
order: the call returned a boolean, or raised. -/
inductive CancelOutcome where
  | ok (success : Bool)
  | exc
deriving Repr, DecidableEq

/-- The observable result of `handle_stale_pending_orders`: the pending
store after removals, the metric deltas, one cancel attempt per stale
order, and the reconciliation-log actions emitted. -/
structure StaleHandlingResult where
  pending : List (String × State.PendingOrder)
  staleDelta : ℕ
  cancelledDelta : ℕ
  cancelAttempts : List String
  logs : List String
deriving Repr, DecidableEq

/-- The per-order loop body of `handle_stale_pending_orders`, folded
over the stale list: attempt the cancel; on success increment
`pending_order_stale_count` and `cancelled_orders_count` and log
`stale_order_cancelled`; on a `False` return just log
`stale_order_removal`; on an exception log `stale_order_error`; in
every case remove the order from the pending store. -/
def handleStaleLoop (cancelOutcome : String → CancelOutcome) :
    List (String × State.PendingOrder × ℚ) → List (String × State.PendingOrder) →
      StaleHandlingResult
  | [], pending => ⟨pending, 0, 0, [], []⟩
  | e :: rest, pending =>
    let pending' := State.remove_pending_order pending e.1
    let r := handleStaleLoop cancelOutcome rest pending'
    match cancelOutcome e.1 with
    | .ok true =>
      ⟨r.pending, r.staleDelta + 1, r.cancelledDelta + 1,
        e.1 :: r.cancelAttempts, "stale_order_cancelled" :: r.logs⟩
    | .ok false =>
      ⟨r.pending, r.staleDelta, r.cancelledDelta,
        e.1 :: r.cancelAttempts, "stale_order_removal" :: r.logs⟩
    | .exc =>
      ⟨r.pending, r.staleDelta, r.cancelledDelta,
        e.1 :: r.cancelAttempts, "stale_order_error" :: r.logs⟩

/-- `main.handle_stale_pending_orders`: compute the stale set, then run
the per-order loop. -/
def handle_stale_pending_orders (pending : List (String × State.PendingOrder))
    (now threshold : ℚ) (cancelOutcome : String → CancelOutcome) :
    StaleHandlingResult :=
  handleStaleLoop cancelOutcome (State.get_stale_pending_orders pending now threshold) pending

end Main

/-- The stale loop records exactly one cancel attempt per stale order. -/
theorem handleStaleLoop_cancelAttempts (co : String → Main.CancelOutcome)
    (stale : List (String × State.PendingOrder × ℚ))
    (pending : List (String × State.PendingOrder)) :
    (Main.handleStaleLoop co stale pending).cancelAttempts = stale.map (fun e => e.1) := by
  induction stale generalizing pending with
  | nil => rfl
  | cons e rest ih =>
    rcases hoc : co e.1 with b | _
    · cases b <;> simp [Main.handleStaleLoop, hoc, ih]
    · simp [Main.handleStaleLoop, hoc, ih]

/-- The stale counter counts exactly the stale orders whose cancel
returned success. -/
theorem handleStaleLoop_staleDelta (co : String → Main.CancelOutcome)
    (stale : List (String × State.PendingOrder × ℚ))
    (pending : List (String × State.PendingOrder)) :
    (Main.handleStaleLoop co stale pending).staleDelta =
      (stale.filter (fun e => co e.1 = Main.CancelOutcome.ok true)).length := by
  induction stale generalizing pending with
  | nil => rfl
  | cons e rest ih =>
    rcases hoc : co e.1 with b | _
    · cases b <;> simp [Main.handleStaleLoop, hoc, ih]
    · simp [Main.handleStaleLoop, hoc, ih]

/-- So does the cancelled counter. -/
theorem handleStaleLoop_cancelledDelta (co : String → Main.CancelOutcome)
    (stale : List (String × State.PendingOrder × ℚ))
    (pending : List (String × State.PendingOrder)) :
    (Main.handleStaleLoop co stale pending).cancelledDelta =
      (stale.filter (fun e => co e.1 = Main.CancelOutcome.ok true)).length := by
  induction stale generalizing pending with
  | nil => rfl
  | cons e rest ih =>
    rcases hoc : co e.1 with b | _
    · cases b <;> simp [Main.handleStaleLoop, hoc, ih]
    · simp [Main.handleStaleLoop, hoc, ih]

/-- A symbol absent from the store stays absent through the loop. -/
theorem handleStaleLoop_pending_mono (co : String → Main.CancelOutcome)
    (stale : List (String × State.PendingOrder × ℚ))
    (pending : List (String × State.PendingOrder)) (sym : String)
    (h : sym ∉ pending.map (fun e => e.1)) :
    sym ∉ (Main.handleStaleLoop co stale pending).pending.map (fun e => e.1) := by
  induction stale generalizing pending with
  | nil => exact h
  | cons e rest ih =>
    have h' : sym ∉ (State.remove_pending_order pending e.1).map (fun q => q.1) := by
      intro hmem
      obtain ⟨q, hq, rfl⟩ := List.mem_map.mp hmem
      exact h (List.mem_map.mpr ⟨q, (List.mem_filter.mp hq).1, rfl⟩)
    rcases hoc : co e.1 with b | _
    · cases b <;> simp only [Main.handleStaleLoop, hoc] <;> exact ih _ h'
    · simp only [Main.handleStaleLoop, hoc]
      exact ih _ h'

/-- Every stale order's symbol is removed from the pending store,
whatever its cancel outcome. -/
theorem handleStaleLoop_removes (co : String → Main.CancelOutcome)
    (stale : List (String × State.PendingOrder × ℚ))
    (pending : List (String × State.PendingOrder))
    (e : String × State.PendingOrder × ℚ) (he : e ∈ stale) :
    e.1 ∉ (Main.handleStaleLoop co stale pending).pending.map (fun q => q.1) := by
  induction stale generalizing pending with
  | nil => cases he
  | cons e0 rest ih =>
    rcases List.mem_cons.mp he with rfl | hrest
    · have h' : e.1 ∉ (State.remove_pending_order pending e.1).map (fun q => q.1) := by
        intro hmem
        obtain ⟨q, hq, hfst⟩ := List.mem_map.mp hmem
        have := (List.mem_filter.mp hq).2
        simp only [ne_eq, decide_eq_true_eq] at this
        exact this hfst
      rcases hoc : co e.1 with b | _
      · cases b <;> simp only [Main.handleStaleLoop, hoc] <;>
          exact handleStaleLoop_pending_mono co rest _ e.1 h'
      · simp only [Main.handleStaleLoop, hoc]
        exact handleStaleLoop_pending_mono co rest _ e.1 h'
    · rcases hoc : co e0.1 with b | _
      · cases b <;> simp only [Main.handleStaleLoop, hoc] <;> exact ih _ hrest
      · simp only [Main.handleStaleLoop, hoc]
        exact ih _ hrest

/-- **C3 (amended).** Every pending order older than the threshold is
detected as stale; the handler attempts to cancel it and removes it
from the pending store regardless of the cancel outcome, but
`pending_order_stale_count` (and `cancelled_orders_count`) are
incremented only for the stale orders whose exchange cancel succeeded. -/
theorem handle_stale_pending_orders_spec
    (pending : List (String × State.PendingOrder)) (now threshold : ℚ)
    (co : String → Main.CancelOutcome) (sym : String) (p : State.PendingOrder) (c : ℚ)
    (hmem : (sym, p) ∈ pending)
    (hres : (p.created_at <|> p.timestamp) = some c)
    (hage : threshold < now - c) :
    (sym, p, now - c) ∈ State.get_stale_pending_orders pending now threshold ∧
    sym ∈ (Main.handle_stale_pending_orders pending now threshold co).cancelAttempts ∧
    sym ∉ (Main.handle_stale_pending_orders pending now threshold co).pending.map
      (fun q => q.1) ∧
    (Main.handle_stale_pending_orders pending now threshold co).staleDelta =
      ((State.get_stale_pending_orders pending now threshold).filter
        (fun e => co e.1 = Main.CancelOutcome.ok true)).length ∧
    (Main.handle_stale_pending_orders pending now threshold co).cancelledDelta =
      ((State.get_stale_pending_orders pending now threshold).filter
        (fun e => co e.1 = Main.CancelOutcome.ok true)).length := by
  have hstale : (sym, p, now - c) ∈ State.get_stale_pending_orders pending now threshold := by
    apply List.mem_filterMap.mpr
    refine ⟨(sym, p), hmem, ?_⟩
    simp only [State.get_stale_pending_orders, hres, if_pos hage]
  refine ⟨hstale, ?_, ?_, ?_, ?_⟩
  · rw [Main.handle_stale_pending_orders, handleStaleLoop_cancelAttempts]
    exact List.mem_map.mpr ⟨(sym, p, now - c), hstale, rfl⟩
  · exact handleStaleLoop_removes co _ pending (sym, p, now - c) hstale
  · exact handleStaleLoop_staleDelta co _ pending
  · exact handleStaleLoop_cancelledDelta co _ pending

/-- Witness for C3 (amended), scenario S6: an order created 7200 s ago
under a 3600 s threshold is detected, cancel-attempted, removed, and
(its cancel succeeding) counted once. -/
theorem handle_stale_pending_orders_spec_witness :
    ("BTC/USDC", ({ order_id := "o1", created_at := some 0, timestamp := none } :
        State.PendingOrder), (7200 : ℚ)) ∈
      State.get_stale_pending_orders
        [("BTC/USDC", { order_id := "o1", created_at := some 0, timestamp := none })]
        7200 3600 ∧
    "BTC/USDC" ∈ (Main.handle_stale_pending_orders
        [("BTC/USDC", { order_id := "o1", created_at := some 0, timestamp := none })]
        7200 3600 (fun _ => .ok true)).cancelAttempts ∧
    "BTC/USDC" ∉ (Main.handle_stale_pending_orders
        [("BTC/USDC", { order_id := "o1", created_at := some 0, timestamp := none })]
        7200 3600 (fun _ => .ok true)).pending.map (fun q => q.1) ∧
    (Main.handle_stale_pending_orders
        [("BTC/USDC", { order_id := "o1", created_at := some 0, timestamp := none })]
        7200 3600 (fun _ => .ok true)).staleDelta =
      ((State.get_stale_pending_orders
        [("BTC/USDC", { order_id := "o1", created_at := some 0, timestamp := none })]
        7200 3600).filter (fun e => (fun _ => Main.CancelOutcome.ok true) e.1 =
          Main.CancelOutcome.ok true)).length ∧
    (Main.handle_stale_pending_orders
        [("BTC/USDC", { order_id := "o1", created_at := some 0, timestamp := none })]
        7200 3600 (fun _ => .ok true)).cancelledDelta =
      ((State.get_stale_pending_orders
        [("BTC/USDC", { order_id := "o1", created_at := some 0, timestamp := none })]
        7200 3600).filter (fun e => (fun _ => Main.CancelOutcome.ok true) e.1 =
          Main.CancelOutcome.ok true)).length := by
  have h := handle_stale_pending_orders_spec
    [("BTC/USDC", { order_id := "o1", created_at := some 0, timestamp := none })]
    7200 3600 (fun _ => .ok true) "BTC/USDC"
    { order_id := "o1", created_at := some 0, timestamp := none } 0
    (by simp) rfl (by norm_num)
  simpa using h

/-- **C3, counterexample.** When the exchange cancel fails, the order
is removed from the store but `pending_order_stale_count` is NOT
incremented — the code increments it only on a successful cancel,
contradicting the claim's "regardless of whether the cancel succeeded
or failed … increments pending_order_stale_count". -/
theorem handle_stale_pending_orders_counterexample :
    (Main.handle_stale_pending_orders
        [("BTC/USDC", { order_id := "o1", created_at := some 0, timestamp := none })]
        7200 3600 (fun _ => .ok false)) =
      { pending := [], staleDelta := 0, cancelledDelta := 0,
        cancelAttempts := ["BTC/USDC"], logs := ["stale_order_removal"] } := by
  with_unfolding_all decide

/-! ## execution.py: TP/SL order classification -/

namespace Execution

/-- The dict `{'sl_orders': …, 'tp_orders': …}` returned by
`get_tp_sl_orders_for_position`. -/
structure SlTpOrders where
  sl_orders : List Order
  tp_orders : List Order
deriving Repr, DecidableEq

/-- Where one loop iteration of `get_tp_sl_orders_for_position` sends
an order: to `sl_orders`, to `tp_orders`, or nowhere. -/
inductive TpSlBucket where
  | slB
  | tpB
  | skipB
deriving Repr, DecidableEq

/-- One iteration of the classification loop: skip orders with a falsy
or non-matching (normalized) symbol; an order is a TP/SL candidate
when it is reduce-only, carries a positive stop price, or has one of
the known TP/SL types; candidates with `STOP` (and not `TAKE_PROFIT`)
in the upper-cased type go to `sl_orders`, those with `TAKE_PROFIT` to
`tp_orders`, ambiguous ones with a stop price to `sl_orders`, and the
rest nowhere. -/
def classifyOrder (norm_target : String) (o : Order) : TpSlBucket :=
  if o.symbol = "" ∨ Utils.normalize_symbol o.symbol ≠ norm_target then .skipB
  else
    let order_type := pyUpper o.otype
    let is_reduce_only := o.reduceOnly
    let has_stop_price : Bool := decide (0 < o.stopPrice)
    let is_tp_sl_candidate :=
      is_reduce_only || has_stop_price || Utils.TP_SL_ORDER_TYPES.contains order_type
    if is_tp_sl_candidate then
      if strContainsSub order_type "STOP" && ! strContainsSub order_type "TAKE_PROFIT" then
        .slB
      else if strContainsSub order_type "TAKE_PROFIT" then .tpB
      else if has_stop_price then .slB
      else .skipB
    else .skipB

/-- The full classification loop, preserving the order of appends. -/
def classifyTpSl (norm_target : String) : List Order → SlTpOrders
  | [] => ⟨[], []⟩
  | o :: rest =>
    let r := classifyTpSl norm_target rest
    match classifyOrder norm_target o with
    | .slB => { r with sl_orders := o :: r.sl_orders }
    | .tpB => { r with tp_orders := o :: r.tp_orders }
    | .skipB => r

/-- `execution.HyperliquidClient.get_tp_sl_orders_for_position`, as a
function of the open orders the exchange returned for the symbol. -/
def get_tp_sl_orders_for_position (fetched : List Order) (symbol : String) : SlTpOrders :=
  classifyTpSl (Utils.normalize_symbol symbol) fetched

end Execution

/-- A bucketed (non-skipped) order has a symbol whose normalization
matches the target. -/
theorem classifyOrder_symbol_match (norm_target : String) (o : Order)
    (h : Execution.classifyOrder norm_target o ≠ .skipB) :
    Utils.normalize_symbol o.symbol = norm_target := by
  by_cases hskip : o.symbol = "" ∨ Utils.normalize_symbol o.symbol ≠ norm_target
  · exact absurd (by simp [Execution.classifyOrder, hskip]) h
  · push_neg at hskip
    exact hskip.2

/-- Every order classified by `classifyTpSl` has a symbol whose
normalization matches the target. -/
theorem classifyTpSl_symbol_match (norm_target : String) (fetched : List Order) (o : Order)
    (h : o ∈ (Execution.classifyTpSl norm_target fetched).sl_orders ∨
      o ∈ (Execution.classifyTpSl norm_target fetched).tp_orders) :
    Utils.normalize_symbol o.symbol = norm_target := by
  induction fetched with
  | nil => rcases h with h | h <;> cases h
  | cons o0 rest ih =>
    simp only [Execution.classifyTpSl] at h
    rcases hb : Execution.classifyOrder norm_target o0 with _ | _ | _ <;> rw [hb] at h
    · rcases h with h | h
      · rcases List.mem_cons.mp h with rfl | hrest
        · exact classifyOrder_symbol_match norm_target o (by rw [hb]; simp)
        · exact ih (Or.inl hrest)
      · exact ih (Or.inr h)
    · rcases h with h | h
      · exact ih (Or.inl h)
      · rcases List.mem_cons.mp h with rfl | hrest
        · exact classifyOrder_symbol_match norm_target o (by rw [hb]; simp)
        · exact ih (Or.inr hrest)
    · exact ih h

/-- `takeWhile (· ≠ c)` is the identity on a list not containing `c`. -/
theorem takeWhile_ne_of_not_contains (l : List Char) (c : Char) (h : l.contains c = false) :
    l.takeWhile (fun x => x ≠ c) = l := by
  induction l with
  | nil => rfl
  | cons a t ih =>
    simp only [List.contains_cons, Bool.or_eq_false_iff] at h
    have hne : a ≠ c := fun hac => beq_eq_false_iff_ne.mp h.1 hac.symm
    simp only [List.takeWhile_cons, decide_eq_true hne, if_true]
    rw [ih h.2]

/-- **C6, counterexample.** The normalization actually used for
order/position matching (`utils.normalize_symbol`, imported by
`get_tp_sl_orders_for_position`) does NOT uppercase: a lower-case
input keeps its case, contradicting "returns the symbol uppercased". -/
theorem normalize_symbol_uppercase_counterexample :
    Utils.normalize_symbol "btc/usdc:usdc" = "btc/usdc" ∧
    ("btc/usdc" : String) ≠ "BTC/USDC" := by
  constructor
  · decide
  · decide

/-- **C6 (amended).** `utils.normalize_symbol` — the variant
`get_tp_sl_orders_for_position` matches orders with — strips
surrounding whitespace and any settlement suffix after `':'` but
preserves case (so `"BTC/USDC:USDC"` normalizes to `"BTC/USDC"`);
the separate `order_utils.normalize_symbol` additionally uppercases;
and TP/SL order classification compares symbols through the utils
normalization. -/
theorem normalize_symbol_amended :
    (∀ s : String, Utils.normalize_symbol s = Utils.splitColonHead (pyStrip s)) ∧
    (∀ s : String, OrderUtils.normalize_symbol s = Utils.splitColonHead (pyUpper s)) ∧
    (∀ (fetched : List Order) (symbol : String) (o : Order),
      (o ∈ (Execution.get_tp_sl_orders_for_position fetched symbol).sl_orders ∨
        o ∈ (Execution.get_tp_sl_orders_for_position fetched symbol).tp_orders) →
      Utils.normalize_symbol o.symbol = Utils.normalize_symbol symbol) ∧
    Utils.normalize_symbol "BTC/USDC:USDC" = "BTC/USDC" := by
  refine ⟨?_, ?_, ?_, by decide⟩
  · intro s
    by_cases hs : s = ""
    · subst hs
      decide
    · simp only [Utils.normalize_symbol, if_neg hs]
      by_cases hc : strContainsChar (pyStrip s) ':'
      · rw [if_pos hc]
      · rw [if_neg hc]
        show pyStrip s = Utils.splitColonHead (pyStrip s)
        unfold Utils.splitColonHead
        rw [takeWhile_ne_of_not_contains _ _ (by simpa [strContainsChar] using hc)]
        rfl
  · intro s
    by_cases hs : s = ""
    · subst hs
      decide
    · simp only [OrderUtils.normalize_symbol, if_neg hs]
      by_cases hc : strContainsChar (pyUpper s) ':'
      · rw [if_pos hc]
      · rw [if_neg hc]
        show pyUpper s = Utils.splitColonHead (pyUpper s)
        unfold Utils.splitColonHead
        rw [takeWhile_ne_of_not_contains _ _ (by simpa [strContainsChar] using hc)]
        rfl
  · intro fetched symbol o h
    exact classifyTpSl_symbol_match (Utils.normalize_symbol symbol) fetched o h

/-- Witness for C6 (amended), scenario S7: a reduce-only STOP_MARKET
order carrying symbol `"BTC/USDC"` is classified for the position
symbol `"BTC/USDC:USDC"`, and the theorem instance yields the
normalized-symbol equations. -/
theorem normalize_symbol_amended_witness :
    Utils.normalize_symbol
        ({ id := "sl1", symbol := "BTC/USDC", otype := "STOP_MARKET", side := "sell",
           amount := 1, remaining := 1, price := 43000, stopPrice := 43000,
           reduceOnly := true } : Order).symbol =
      Utils.normalize_symbol "BTC/USDC:USDC" ∧
    Utils.normalize_symbol "BTC/USDC:USDC" = "BTC/USDC" := by
  refine ⟨normalize_symbol_amended.2.2.1
    [{ id := "sl1", symbol := "BTC/USDC", otype := "STOP_MARKET", side := "sell",
       amount := 1, remaining := 1, price := 43000, stopPrice := 43000,
       reduceOnly := true }] "BTC/USDC:USDC" _ (Or.inl ?_),
    normalize_symbol_amended.2.2.2⟩
  decide

/-- `a ≤ pyMax a b`. -/
theorem le_pyMax_left (a b : ℚ) : a ≤ pyMax a b := by
  unfold pyMax
  split <;> linarith

/-- The order with a zero stored price used against C7. -/
def orderC7 : Order :=
  { id := "o1", symbol := "BTC/USDC", otype := "STOP_MARKET", side := "sell",
    amount := 5, remaining := 5, price := 0, stopPrice := 0, reduceOnly := true }

/-- **C7, counterexample.** An order whose stored stop-or-limit price
is `0` and equals the target `0`, with amount equal to the target
quantity, is still rejected: the zero-price guard fires before any
tolerance comparison, so reflexivity fails at price 0. -/
theorem order_matches_target_reflexive_counterexample :
    (if orderC7.stopPrice ≠ 0 then orderC7.stopPrice else orderC7.price) = 0 ∧
    orderC7.amount = 5 ∧
    OrderUtils.order_matches_target orderC7 0 5 (1/2) (1/100) = false := by
  refine ⟨by decide, rfl, by decide⟩

/-- **C7 (amended).** `order_matches_target` is reflexive on orders
whose stored stop-or-limit price resolves to a NONZERO value equal to
the target price and whose stored amount is nonnegative and equal to
the target quantity (price within `max(tick, 0.1%)` tolerance,
quantity within the 1% tolerance). -/
theorem order_matches_target_reflexive (o : Order) (p q tick : ℚ)
    (hp : (if o.stopPrice ≠ 0 then o.stopPrice else o.price) = p) (hp0 : p ≠ 0)
    (hq : o.amount = q) (hq0 : 0 ≤ q) :
    OrderUtils.order_matches_target o p q tick (1/100) = true := by
  simp only [OrderUtils.order_matches_target, hp, hq, if_neg hp0]
  rw [Bool.and_eq_true]
  constructor
  · simp only [OrderUtils.prices_are_equal]
    apply decide_eq_true
    have habs : pyAbs (p - p) = 0 := by simp [pyAbs]
    rw [habs]
    have htick : (0:ℚ) < if 0 < tick then tick else 1/100000000 := by
      split <;> norm_num
      assumption
    exact le_trans (le_of_lt htick) (le_pyMax_left _ _)
  · apply decide_eq_true
    have habs : pyAbs (q - q) = 0 := by simp [pyAbs]
    rw [habs]
    positivity

/-- Witness for C7 (amended): a stop order at `43000` with amount `2`
matches the target `(43000, 2)`. -/
theorem order_matches_target_reflexive_witness :
    OrderUtils.order_matches_target
      { id := "o2", symbol := "BTC/USDC", otype := "STOP_MARKET", side := "sell",
        amount := 2, remaining := 2, price := 43000, stopPrice := 43000,
        reduceOnly := true } 43000 2 (1/2) (1/100) = true := by
  exact order_matches_target_reflexive _ 43000 2 (1/2) (by decide) (by decide) rfl
    (by decide)

/-! ## order_utils.py: backoff and safe TP/SL placement -/

namespace OrderUtils

/-- An entry of `state.bot_state.tp_sl_backoff`: `{"until": iso-time,
"logged": bool}`; times are rational seconds (the ISO parse of entries
the code itself wrote always succeeds). -/
structure BackoffEntry where
  untilTime : ℚ
  logged : Bool
deriving Repr, DecidableEq

/-- `state.bot_state.tp_sl_backoff.get(symbol)`. -/
def backoffLookup (tbl : List (String × BackoffEntry)) (symbol : String) :
    Option BackoffEntry :=
  (tbl.find? (fun e => e.1 == symbol)).map (fun e => e.2)

/-- Dict assignment `tp_sl_backoff[symbol] = entry`. -/
def backoffSet (tbl : List (String × BackoffEntry)) (symbol : String)
    (entry : BackoffEntry) : List (String × BackoffEntry) :=
  (symbol, entry) :: tbl.filter (fun e => e.1 ≠ symbol)

/-- `del tp_sl_backoff[symbol]`. -/
def backoffDelete (tbl : List (String × BackoffEntry)) (symbol : String) :
    List (String × BackoffEntry) :=
  tbl.filter (fun e => e.1 ≠ symbol)

/-- `order_utils.set_backoff`: record an expiry
`now + (seconds or config.TP_SL_PENDING_BACKOFF_SECONDS)` with a fresh
`logged = False` flag (a falsy `seconds` falls back to the config
value, mirroring `seconds or …`). -/
def set_backoff (tbl : List (String × BackoffEntry)) (symbol : String) (now : ℚ)
    (seconds : Option ℚ) (cfgBackoffSeconds : ℚ) : List (String × BackoffEntry) :=
  let secs := match seconds with
    | none => cfgBackoffSeconds
    | some s => if s = 0 then cfgBackoffSeconds else s
  backoffSet tbl symbol { untilTime := now + secs, logged := false }

/-- `order_utils.check_backoff`: `(active, seconds_remaining)` plus the
table (expired entries are cleared). -/
def check_backoff (tbl : List (String × BackoffEntry)) (symbol : String) (now : ℚ) :
    (Bool × ℚ) × List (String × BackoffEntry) :=
  match backoffLookup tbl symbol with
  | none => ((false, 0), tbl)
  | some entry =>
    let remaining := entry.untilTime - now
    if 0 < remaining then ((true, remaining), tbl)
    else ((false, 0), backoffDelete tbl symbol)

/-- Decimal `ROUND_HALF_UP` (ties away from zero) to an integer. -/
def roundHalfUp (x : ℚ) : ℤ :=
  if 0 ≤ x then ⌊x + 1/2⌋ else -⌊-x + 1/2⌋

/-- `order_utils.round_to_tick`. -/
def round_to_tick (value tick_size : ℚ) : ℚ :=
  if tick_size ≤ 0 then value
  else (roundHalfUp (value / tick_size) : ℚ) * tick_size

/-- The exchange interactions `safe_place_tp_sl` can perform. -/
inductive TpSlEvent where
  | placeStopLoss (side : String) (amount price : ℚ)
  | placeTakeProfit (side : String) (amount price : ℚ)
  | marketReduceClose (side : String) (amount : ℚ) (reason : String)
deriving Repr, DecidableEq

/-- What the exchange and market return during one `safe_place_tp_sl`
call: the mark price (None when the ticker fetch failed), the tick
size, and the results of the placement/closure calls, should they be
issued.  All the helpers it calls trap their own exceptions and return
sentinels, which is what these fields model. -/
structure TpSlEnv where
  current_price : Option ℚ
  tick_size : ℚ
  sl_result : Option Order
  tp_result : Option Order
  market_close_result : Option Order
deriving Repr, DecidableEq

/-- The observable outcome of `safe_place_tp_sl`: the returned boolean,
the backoff table afterwards, and the exchange calls issued. -/
structure SafePlaceResult where
  result : Bool
  backoff : List (String × BackoffEntry)
  events : List TpSlEvent
deriving Repr, DecidableEq

/-- `order_utils.safe_place_tp_sl`: skip under an active backoff
(emitting the one-shot "skipped" log); otherwise pre-check the rounded
TP/SL against mark ± `tick·TP_SL_BUFFER_TICKS`; on a crossed price
either market-close reduce-only (mode `MARKET_REDUCE`, the default for
invalid modes) or skip (mode `NONE`); otherwise place SL first and TP
only after SL success; in every non-skipped path the `finally` (or the
missing-price early return) records a fresh backoff. -/
def safe_place_tp_sl (tbl : List (String × BackoffEntry)) (now : ℚ) (env : TpSlEnv)
    (cfgFallbackMode : String) (cfgBufferTicks cfgBackoffSeconds : ℚ)
    (symbol : String) (is_long : Bool) (amount computed_tp computed_sl : ℚ) :
    SafePlaceResult :=
  let cb := check_backoff tbl symbol now
  if cb.1.1 then
    let tbl' := match backoffLookup cb.2 symbol with
      | some e => if e.logged then cb.2 else backoffSet cb.2 symbol { e with logged := true }
      | none => cb.2
    ⟨false, tbl', []⟩
  else
    let tbl1 := cb.2
    let tick_size := env.tick_size
    let buffer := tick_size * cfgBufferTicks
    let fallback_mode0 := pyUpper cfgFallbackMode
    let fallback_mode := if fallback_mode0 ≠ "MARKET_REDUCE" ∧ fallback_mode0 ≠ "NONE"
      then "MARKET_REDUCE" else fallback_mode0
    let rounded_tp := round_to_tick computed_tp tick_size
    let rounded_sl := round_to_tick computed_sl tick_size
    let close_side := if is_long then "sell" else "buy"
    match env.current_price with
    | none => ⟨false, set_backoff tbl1 symbol now none cfgBackoffSeconds, []⟩
    | some current_price =>
      let tp_crossed := if is_long then decide (rounded_tp ≤ current_price + buffer)
        else decide (current_price - buffer ≤ rounded_tp)
      let sl_crossed := if is_long then decide (current_price - buffer ≤ rounded_sl)
        else decide (rounded_sl ≤ current_price + buffer)
      let body : Bool × List TpSlEvent :=
        if tp_crossed || sl_crossed then
          let reason := if tp_crossed then "tp_already_crossed" else "sl_already_crossed"
          if fallback_mode = "MARKET_REDUCE" then
            (env.market_close_result.isSome, [.marketReduceClose close_side amount reason])
          else (false, [])
        else
          match env.sl_result with
          | none => (false, [.placeStopLoss close_side amount rounded_sl])
          | some _ =>
            (env.tp_result.isSome,
              [.placeStopLoss close_side amount rounded_sl,
               .placeTakeProfit close_side amount rounded_tp])
      ⟨body.1, set_backoff tbl1 symbol now none cfgBackoffSeconds, body.2⟩

end OrderUtils

/-- A `backoffSet` entry is what a subsequent lookup finds. -/
theorem backoffLookup_set_self (tbl : List (String × OrderUtils.BackoffEntry))
    (symbol : String) (e : OrderUtils.BackoffEntry) :
    OrderUtils.backoffLookup (OrderUtils.backoffSet tbl symbol e) symbol = some e := by
  simp [OrderUtils.backoffLookup, OrderUtils.backoffSet, List.find?]

/-- Every non-skipped `safe_place_tp_sl` run leaves a fresh backoff
entry for the symbol, expiring `cfgBackoffSeconds` later. -/
theorem safe_place_sets_backoff (tbl : List (String × OrderUtils.BackoffEntry))
    (now : ℚ) (env : OrderUtils.TpSlEnv) (mode : String) (bt bs : ℚ)
    (symbol : String) (is_long : Bool) (amount tp sl : ℚ)
    (h : (OrderUtils.check_backoff tbl symbol now).1.1 = false) :
    (OrderUtils.safe_place_tp_sl tbl now env mode bt bs symbol is_long amount tp sl).backoff =
      OrderUtils.backoffSet (OrderUtils.check_backoff tbl symbol now).2 symbol
        { untilTime := now + bs, logged := false } := by
  unfold OrderUtils.safe_place_tp_sl
  rw [if_neg (by rw [h]; exact Bool.false_ne_true)]
  cases hcp : env.current_price <;>
    simp [hcp, OrderUtils.set_backoff]

/-- **C10.** Every invocation of `safe_place_tp_sl` that is not skipped
by an already-active backoff finishes by recording a fresh backoff
entry for the symbol, expiring `TP_SL_PENDING_BACKOFF_SECONDS` later —
on successful SL+TP placement, on any failure, and on the crossed-price
fallback alike — so a second invocation for the same symbol within that
window returns `False` without placing or closing anything. -/
theorem safe_place_tp_sl_records_backoff
    (tbl : List (String × OrderUtils.BackoffEntry)) (now : ℚ) (env : OrderUtils.TpSlEnv)
    (mode : String) (bt bs : ℚ) (symbol : String) (is_long : Bool) (amount tp sl : ℚ)
    (h : (OrderUtils.check_backoff tbl symbol now).1.1 = false) :
    OrderUtils.backoffLookup
        (OrderUtils.safe_place_tp_sl tbl now env mode bt bs symbol is_long amount tp sl).backoff
        symbol = some { untilTime := now + bs, logged := false } ∧
    ∀ (now2 : ℚ), now2 < now + bs →
      ∀ (env2 : OrderUtils.TpSlEnv) (mode2 : String) (bt2 bs2 : ℚ) (il2 : Bool)
        (amount2 tp2 sl2 : ℚ),
        (OrderUtils.safe_place_tp_sl
            (OrderUtils.safe_place_tp_sl tbl now env mode bt bs symbol is_long amount tp sl).backoff
            now2 env2 mode2 bt2 bs2 symbol il2 amount2 tp2 sl2).result = false ∧
        (OrderUtils.safe_place_tp_sl
            (OrderUtils.safe_place_tp_sl tbl now env mode bt bs symbol is_long amount tp sl).backoff
            now2 env2 mode2 bt2 bs2 symbol il2 amount2 tp2 sl2).events = [] := by
  have hset := safe_place_sets_backoff tbl now env mode bt bs symbol is_long amount tp sl h
  have hlk : OrderUtils.backoffLookup
      (OrderUtils.safe_place_tp_sl tbl now env mode bt bs symbol is_long amount tp sl).backoff
      symbol = some { untilTime := now + bs, logged := false } := by
    rw [hset]
    exact backoffLookup_set_self _ _ _
  refine ⟨hlk, ?_⟩
  intro now2 h2 env2 mode2 bt2 bs2 il2 amount2 tp2 sl2
  set B := (OrderUtils.safe_place_tp_sl tbl now env mode bt bs symbol is_long amount tp sl).backoff
    with hB
  have hcb : OrderUtils.check_backoff B symbol now2 = ((true, now + bs - now2), B) := by
    unfold OrderUtils.check_backoff
    rw [hlk]
    simp only
    rw [if_pos (by linarith)]
  constructor
  · show (OrderUtils.safe_place_tp_sl B now2 env2 mode2 bt2 bs2 symbol il2 amount2 tp2 sl2).result
      = false
    unfold OrderUtils.safe_place_tp_sl
    rw [hcb]
    rfl
  · show (OrderUtils.safe_place_tp_sl B now2 env2 mode2 bt2 bs2 symbol il2 amount2 tp2 sl2).events
      = []
    unfold OrderUtils.safe_place_tp_sl
    rw [hcb]
    rfl

/-- Witness for C10: from an empty backoff table, one (successful)
placement run records a 60 s backoff, and a second call 30 s later is
skipped with no exchange interaction. -/
theorem safe_place_tp_sl_records_backoff_witness :
    OrderUtils.backoffLookup
        (OrderUtils.safe_place_tp_sl [] 0
          { current_price := some 100, tick_size := 1, sl_result := none,
            tp_result := none, market_close_result := none }
          "MARKET_REDUCE" 1 60 "BTC/USDC" true 1 110 90).backoff
        "BTC/USDC" = some { untilTime := 60, logged := false } ∧
    (OrderUtils.safe_place_tp_sl
        (OrderUtils.safe_place_tp_sl [] 0
          { current_price := some 100, tick_size := 1, sl_result := none,
            tp_result := none, market_close_result := none }
          "MARKET_REDUCE" 1 60 "BTC/USDC" true 1 110 90).backoff
        30
        { current_price := some 100, tick_size := 1, sl_result := none,
          tp_result := none, market_close_result := none }
        "MARKET_REDUCE" 1 60 "BTC/USDC" true 1 110 90).result = false ∧
    (OrderUtils.safe_place_tp_sl
        (OrderUtils.safe_place_tp_sl [] 0
          { current_price := some 100, tick_size := 1, sl_result := none,
            tp_result := none, market_close_result := none }
          "MARKET_REDUCE" 1 60 "BTC/USDC" true 1 110 90).backoff
        30
        { current_price := some 100, tick_size := 1, sl_result := none,
          tp_result := none, market_close_result := none }
        "MARKET_REDUCE" 1 60 "BTC/USDC" true 1 110 90).events = [] := by
  have h := safe_place_tp_sl_records_backoff [] 0
    { current_price := some 100, tick_size := 1, sl_result := none,
      tp_result := none, market_close_result := none }
    "MARKET_REDUCE" 1 60 "BTC/USDC" true 1 110 90 rfl
  have h2 := h.2 30 (by norm_num)
    { current_price := some 100, tick_size := 1, sl_result := none,
      tp_result := none, market_close_result := none }
    "MARKET_REDUCE" 1 60 true 1 110 90
  have h1 := h.1
  rw [zero_add] at h1
  exact ⟨h1, h2.1, h2.2⟩

/-! ## execution.py: order placement and idempotent SL/TP pairing -/

namespace Execution

/-- `execution._validate_order_response`: the response must carry a
truthy order id (the `id or orderId or client_order_id or clientOrderId`
chain is collapsed into the single `id` field; `""` models all-falsy). -/
def validateOrderResponse (resp : Option Order) : Option Order :=
  match resp with
  | none => none
  | some o => if o.id = "" then none else some o

/-- What one `exchange.create_order` call does: return a (possibly
falsy) response, or raise (transient or not, per
`_is_transient_error`). -/
inductive CreateAttempt where
  | resp (o : Option Order)
  | exc (transient : Bool)

/-- An exchange interaction recorded by the embedded
`place_sl_tp_orders`. -/
inductive ExchangeEvent where
  | createOrder (otype side : String)
  | cancelOrder (symbol id : String)
deriving Repr, DecidableEq

/-- The shared retry loop of `place_limit_order` / `place_stop_loss` /
`place_take_profit` / `close_position_market` (each inlines this exact
loop in the source): up to the given number of attempts, each
consuming one `create_order` call; a validated response returns
immediately; an invalid/falsy response retries while attempts remain;
an exception retries only when transient and attempts remain.  Returns
the final result and the number of `create_order` calls made. -/
def orderAttemptLoop (attempts : ℕ → CreateAttempt) (i : ℕ) :
    ℕ → Option Order × ℕ
  | 0 => (none, 0)
  | r + 1 =>
    match attempts i with
    | .resp o =>
      match validateOrderResponse o with
      | some v => (some v, 1)
      | none =>
        if r = 0 then (none, 1)
        else
          let res := orderAttemptLoop attempts (i + 1) r
          (res.1, res.2 + 1)
    | .exc t =>
      if t ∧ r ≠ 0 then
        let res := orderAttemptLoop attempts (i + 1) r
        (res.1, res.2 + 1)
      else (none, 1)

/-- `execution._select_matching_order` (local to `place_sl_tp_orders`):
`None` on an empty candidate list, else the first candidate matching
price and quantity (with `qty_tol = config.TP_SL_QUANTITY_TOLERANCE`),
else the first candidate. -/
def selectMatchingOrder (candidates : List Order) (target_price target_qty : ℚ) :
    Option Order :=
  match candidates with
  | [] => none
  | _ =>
    match candidates.find? (fun c =>
        order_matches_target c target_price target_qty
          PRICE_TOLERANCE_PCT TP_SL_QUANTITY_TOLERANCE) with
    | some c => some c
    | none => candidates.head?

/-- The four-key dict `_find_matching_reduce_only_from_state` builds
from a cached order (`id`, `stopPrice := stop_price or price`,
`price`, `amount`); fields the mapped dict does not carry are zeroed
(they are never read by `order_matches_target`). -/
def mapCachedOrder (c : CachedOrder) : Order :=
  { id := c.order_id
    symbol := ""
    otype := ""
    side := ""
    amount := c.amount
    remaining := 0
    price := c.price
    stopPrice := if c.stop_price ≠ 0 then c.stop_price else c.price
    reduceOnly := false }

/-- `execution._find_matching_reduce_only_from_state`: scan the given
cached orders (an empty/None argument falls back to the full cached
`exchange_open_orders`, mirroring `orders or state…`), returning the
first mapped order matching the target within default tolerances. -/
def findMatchingReduceOnlyFromState (cachedFull : List CachedOrder)
    (provided : Option (List CachedOrder)) (target_price target_qty : ℚ) :
    Option Order :=
  let cached_orders := match provided with
    | some l => if l.isEmpty then cachedFull else l
    | none => cachedFull
  (cached_orders.map mapCachedOrder).find? (fun m =>
    order_matches_target m target_price target_qty
      PRICE_TOLERANCE_PCT QUANTITY_TOLERANCE_PCT)

/-- The observable outcome of `place_sl_tp_orders`: the returned
`{'sl_order': …, 'tp_order': …}` pair, the exchange interactions in
order, and the final `duplicate_placement_attempts` counter. -/
structure PlaceSlTpResult where
  sl_order : Option Order
  tp_order : Option Order
  events : List ExchangeEvent
  duplicate_placement_attempts : ℕ
deriving Repr

/-- One leg (SL or TP) of `place_sl_tp_orders`: reuse a matching
existing order (counter + 1, no exchange call); cancel a mismatched
existing order and place anew; or just place.  Returns the leg's
order, its events, and its counter contribution.
(`_update_state_after_order`, which refreshes the cached open-order
list after a successful placement, alters none of these observables
and is not tracked.) -/
def placeLeg (existing : Option Order) (attempts : ℕ → CreateAttempt)
    (symbol otype sl_tp_side : String) (target_price amount : ℚ) :
    Option Order × List ExchangeEvent × ℕ :=
  match existing with
  | some e =>
    if order_matches_target e target_price amount
        PRICE_TOLERANCE_PCT QUANTITY_TOLERANCE_PCT then
      (some e, [], 1)
    else
      let placed := orderAttemptLoop attempts 0 MAX_ORDER_RETRIES
      (placed.1,
        ExchangeEvent.cancelOrder symbol e.id ::
          List.replicate placed.2 (.createOrder otype sl_tp_side), 0)
  | none =>
    let placed := orderAttemptLoop attempts 0 MAX_ORDER_RETRIES
    (placed.1, List.replicate placed.2 (.createOrder otype sl_tp_side), 0)

/-- `execution.HyperliquidClient.place_sl_tp_orders`, as a function of
the open orders fetched for the symbol, the cached
`state.bot_state.exchange_open_orders`, and the exchange's responses
to any SL/TP `create_order` attempts.  `dup0` is the
`duplicate_placement_attempts` counter before the call. -/
def place_sl_tp_orders (fetched : List Order) (cached : List CachedOrder)
    (slAttempts tpAttempts : ℕ → CreateAttempt) (symbol side : String)
    (amount sl_price tp_price : ℚ) (dup0 : ℕ) : PlaceSlTpResult :=
  let sl_tp_side := if side = "buy" then "sell" else "buy"
  let existing_tp_sl := get_tp_sl_orders_for_position fetched symbol
  let existing_sl := selectMatchingOrder existing_tp_sl.sl_orders sl_price amount
  let existing_tp := selectMatchingOrder existing_tp_sl.tp_orders tp_price amount
  let state_reduce_orders : Option (List CachedOrder) :=
    if existing_sl.isNone || existing_tp.isNone then
      some (cached.filter (fun o => o.symbol = symbol ∧ o.reduce_only))
    else none
  let existing_sl := match existing_sl with
    | some o => some o
    | none => findMatchingReduceOnlyFromState cached state_reduce_orders sl_price amount
  let existing_tp := match existing_tp with
    | some o => some o
    | none => findMatchingReduceOnlyFromState cached state_reduce_orders tp_price amount
  let slStep := placeLeg existing_sl slAttempts symbol "STOP_MARKET" sl_tp_side sl_price amount
  let tpStep := placeLeg existing_tp tpAttempts symbol "TAKE_PROFIT_MARKET" sl_tp_side tp_price amount
  { sl_order := slStep.1
    tp_order := tpStep.1
    events := slStep.2.1 ++ tpStep.2.1
    duplicate_placement_attempts := dup0 + slStep.2.2 + tpStep.2.2 }

end Execution

/-- When some candidate matches, `_select_matching_order` returns a
matching candidate (the first one). -/
theorem selectMatchingOrder_of_exists (candidates : List Order) (p q : ℚ)
    (h : ∃ o ∈ candidates, Execution.order_matches_target o p q
      PRICE_TOLERANCE_PCT TP_SL_QUANTITY_TOLERANCE = true) :
    ∃ o, Execution.selectMatchingOrder candidates p q = some o ∧ o ∈ candidates ∧
      Execution.order_matches_target o p q PRICE_TOLERANCE_PCT
        TP_SL_QUANTITY_TOLERANCE = true := by
  obtain ⟨w, hw, hpw⟩ := h
  have hfind : (candidates.find? (fun c => Execution.order_matches_target c p q
      PRICE_TOLERANCE_PCT TP_SL_QUANTITY_TOLERANCE)).isSome :=
    List.find?_isSome.mpr ⟨w, hw, hpw⟩
  obtain ⟨o, ho⟩ := Option.isSome_iff_exists.mp hfind
  have hpred := List.find?_some ho
  refine ⟨o, ?_, List.mem_of_find?_eq_some ho, by simpa using hpred⟩
  cases candidates with
  | nil => cases hw
  | cons a t => simp only [Execution.selectMatchingOrder, ho]

/-- **C1.** When the exchange open orders for a symbol already contain
a stop-loss and a take-profit leg that both match the requested SL/TP
prices and quantity within tolerance, `place_sl_tp_orders` returns
those two existing orders unchanged, issues zero `create_order` (and
zero `cancel_order`) calls, and increments
`duplicate_placement_attempts` by exactly 2. -/
theorem place_sl_tp_orders_idempotent (fetched : List Order) (cached : List CachedOrder)
    (slAttempts tpAttempts : ℕ → Execution.CreateAttempt) (symbol side : String)
    (amount sl_price tp_price : ℚ) (dup0 : ℕ)
    (hsl : ∃ o ∈ (Execution.get_tp_sl_orders_for_position fetched symbol).sl_orders,
      Execution.order_matches_target o sl_price amount PRICE_TOLERANCE_PCT
        TP_SL_QUANTITY_TOLERANCE = true)
    (htp : ∃ o ∈ (Execution.get_tp_sl_orders_for_position fetched symbol).tp_orders,
      Execution.order_matches_target o tp_price amount PRICE_TOLERANCE_PCT
        TP_SL_QUANTITY_TOLERANCE = true) :
    ∃ slO tpO,
      slO ∈ (Execution.get_tp_sl_orders_for_position fetched symbol).sl_orders ∧
      tpO ∈ (Execution.get_tp_sl_orders_for_position fetched symbol).tp_orders ∧
      Execution.place_sl_tp_orders fetched cached slAttempts tpAttempts symbol side
          amount sl_price tp_price dup0 =
        { sl_order := some slO, tp_order := some tpO, events := [],
          duplicate_placement_attempts := dup0 + 2 } := by
  obtain ⟨slO, hslsel, hslmem, hslm⟩ :=
    selectMatchingOrder_of_exists _ sl_price amount hsl
  obtain ⟨tpO, htpsel, htpmem, htpm⟩ :=
    selectMatchingOrder_of_exists _ tp_price amount htp
  refine ⟨slO, tpO, hslmem, htpmem, ?_⟩
  have hslm' : Execution.order_matches_target slO sl_price amount PRICE_TOLERANCE_PCT
      QUANTITY_TOLERANCE_PCT = true := hslm
  have htpm' : Execution.order_matches_target tpO tp_price amount PRICE_TOLERANCE_PCT
      QUANTITY_TOLERANCE_PCT = true := htpm
  simp only [Execution.place_sl_tp_orders, hslsel, htpsel]
  simp only [Execution.placeLeg, hslm', htpm', if_true]
  simp only [List.nil_append, Execution.PlaceSlTpResult.mk.injEq]

/-- The existing matching stop-loss leg for the C1 witness. -/
def slC1 : Order :=
  { id := "sl1", symbol := "BTC/USDC", otype := "STOP_MARKET", side := "sell",
    amount := 1, remaining := 1, price := 43000, stopPrice := 43000,
    reduceOnly := true }

/-- The existing matching take-profit leg for the C1 witness. -/
def tpC1 : Order :=
  { id := "tp1", symbol := "BTC/USDC", otype := "TAKE_PROFIT_MARKET", side := "sell",
    amount := 1, remaining := 1, price := 49000, stopPrice := 49000,
    reduceOnly := true }

/-- Witness for C1 (scenario S3 with quantity 1): with `SL@43000×1`
and `TP@49000×1` already open, `place_sl_tp_orders(BTC/USDC, buy, 1,
43000, 49000)` reuses both, performs no exchange call, and bumps the
duplicate counter from 0 to 2. -/
theorem place_sl_tp_orders_idempotent_witness :
    ∃ slO tpO,
      slO ∈ (Execution.get_tp_sl_orders_for_position [slC1, tpC1] "BTC/USDC").sl_orders ∧
      tpO ∈ (Execution.get_tp_sl_orders_for_position [slC1, tpC1] "BTC/USDC").tp_orders ∧
      Execution.place_sl_tp_orders [slC1, tpC1] [] (fun _ => .resp none) (fun _ => .resp none)
          "BTC/USDC" "buy" 1 43000 49000 0 =
        { sl_order := some slO, tp_order := some tpO, events := [],
          duplicate_placement_attempts := 0 + 2 } := by
  apply place_sl_tp_orders_idempotent
  · refine ⟨slC1, ?_, ?_⟩
    · decide
    · norm_num [Execution.order_matches_target, Execution.approx_equal, pyAbs, pyMax,
        PRICE_TOLERANCE_PCT, TP_SL_QUANTITY_TOLERANCE, slC1]
  · refine ⟨tpC1, ?_, ?_⟩
    · decide
    · norm_num [Execution.order_matches_target, Execution.approx_equal, pyAbs, pyMax,
        PRICE_TOLERANCE_PCT, TP_SL_QUANTITY_TOLERANCE, tpC1]

/-! ## main.py: breach safety net -/

namespace Main

/-- Python truthiness of a possibly-missing number
(`if take_profit and …`). -/
def pyTruthyOptQ : Option ℚ → Bool
  | none => false
  | some v => decide (v ≠ 0)

/-- Python truthiness of a possibly-missing list value. -/
def pyTruthyOL : Option (List Order) → Bool
  | none => false
  | some l => ! l.isEmpty

/-- The dict value `get_tp_sl_orders_for_position` returns, as the
key-value pairs `{'sl_orders': …, 'tp_orders': …}` the caller sees. -/
def slTpDict (g : Execution.SlTpOrders) : List (String × List Order) :=
  [("sl_orders", g.sl_orders), ("tp_orders", g.tp_orders)]

/-- `dict.get(key)` on that dict. -/
def dictGetOrders (d : List (String × List Order)) (key : String) :
    Option (List Order) :=
  (d.find? (fun e => e.1 == key)).map (fun e => e.2)

/-- The observable outcome of one position's iteration of
`monitor_and_close_positions`: whether the per-symbol handler caught an
exception, the `close_position_market` call (side, formatted size,
reason) if issued, the `'SL'`/`'TP'` tags of successfully cancelled
legs, and the forced-closure log's (reason, recorded pnl). -/
structure MonitorOutcome where
  aborted : Bool
  closeCall : Option (String × ℚ × String)
  cancelled_orders : List String
  forcedLog : Option (String × ℚ)
deriving Repr, DecidableEq

/-- One position's iteration of `main.monitor_and_close_positions`:
skip zero/invalid sizes and marks, skip positions with neither TP nor
SL; detect a breach (LONG: `mark ≥ TP` → `tp_breach`, `mark ≤ SL` →
`sl_breach`; SHORT symmetrically); on a breach, look up the TP/SL legs
to cancel — the source reads keys `'sl_order'`/`'tp_order'` from the
`{'sl_orders','tp_orders'}` dict, so both lookups return `None`; were
a lookup ever truthy the code would subscript a list with `'id'` and
raise (caught by the per-symbol handler), and since neither `if` body
runs, `cancelled_orders` stays empty — then market-close the position
and, on success, record the forced-closure log with the rounded
side-adjusted pnl. -/
def monitor_position_step (fetched : List Order) (amountToPrecision : ℚ → ℚ)
    (closeResult : Option Order) (symbol : String) (pos : State.Position) :
    MonitorOutcome :=
  let size := pos.size
  let side := pyUpper pos.side
  let mark_price := pos.mark_price
  let take_profit := pos.take_profit
  let stop_loss := pos.stop_loss
  let entry_price := pos.entry_price
  if size ≤ 0 ∨ mark_price ≤ 0 then ⟨false, none, [], none⟩
  else if ! pyTruthyOptQ take_profit && ! pyTruthyOptQ stop_loss then ⟨false, none, [], none⟩
  else
    let breach : Option String :=
      if side = "LONG" then
        if pyTruthyOptQ take_profit && decide (take_profit.getD 0 ≤ mark_price) then
          some "tp_breach"
        else if pyTruthyOptQ stop_loss && decide (mark_price ≤ stop_loss.getD 0) then
          some "sl_breach"
        else none
      else if side = "SHORT" then
        if pyTruthyOptQ take_profit && decide (mark_price ≤ take_profit.getD 0) then
          some "tp_breach"
        else if pyTruthyOptQ stop_loss && decide (stop_loss.getD 0 ≤ mark_price) then
          some "sl_breach"
        else none
      else none
    match breach with
    | none => ⟨false, none, [], none⟩
    | some close_reason =>
      let close_side := if side = "LONG" then "sell" else "buy"
      let formatted_size := amountToPrecision size
      let tp_sl_orders := slTpDict (Execution.get_tp_sl_orders_for_position fetched symbol)
      let slLeg := dictGetOrders tp_sl_orders "sl_order"
      let tpLeg := dictGetOrders tp_sl_orders "tp_order"
      if pyTruthyOL slLeg || pyTruthyOL tpLeg then ⟨true, none, [], none⟩
      else
        let cancelled_orders : List String := []
        match closeResult with
        | some _ =>
          let pnl := if side = "LONG" then (mark_price - entry_price) * size
            else (entry_price - mark_price) * size
          ⟨false, some (close_side, formatted_size, close_reason), cancelled_orders,
            some (close_reason, State.pyRound2 pnl)⟩
        | none =>
          ⟨false, some (close_side, formatted_size, close_reason), cancelled_orders, none⟩

end Main

/-- The `'sl_order'` lookup of the breach monitor misses the
`'sl_orders'` key for every classification result. -/
theorem dictGetOrders_sl_order_none (g : Execution.SlTpOrders) :
    Main.dictGetOrders (Main.slTpDict g) "sl_order" = none := rfl

/-- So does the `'tp_order'` lookup. -/
theorem dictGetOrders_tp_order_none (g : Execution.SlTpOrders) :
    Main.dictGetOrders (Main.slTpDict g) "tp_order" = none := rfl

/-- The open reduce-only stop-loss leg in the C2 breach scenario. -/
def slC2 : Order :=
  { id := "sl39", symbol := "BTC/USDC", otype := "STOP_MARKET", side := "sell",
    amount := 1, remaining := 1, price := 39000, stopPrice := 39000,
    reduceOnly := true }

/-- The open reduce-only take-profit leg in the C2 breach scenario. -/
def tpC2 : Order :=
  { id := "tp41", symbol := "BTC/USDC", otype := "TAKE_PROFIT_MARKET", side := "sell",
    amount := 1, remaining := 1, price := 41000, stopPrice := 41000,
    reduceOnly := true }

/-- The breached LONG position (scenario S5 with size 1): entry 40000,
TP 41000, SL 39000, mark 41500. -/
def posC2 : State.Position :=
  { symbol := "BTC/USDC", side := "LONG", size := 1, entry_price := 40000,
    mark_price := 41500, unrealized_pnl := 0, leverage := 1,
    take_profit := some 41000, stop_loss := some 39000 }

/-- The market order the exchange returns for the forced closure. -/
def marketC2 : Order :=
  { id := "mkt1", symbol := "BTC/USDC", otype := "market", side := "sell",
    amount := 1, remaining := 0, price := 0, stopPrice := 0, reduceOnly := true }

/-- **C2, evaluation at the failing input.** With both reduce-only
legs open and a TP breach (LONG, mark 41500 ≥ TP 41000), the monitor
submits the reduce-only market close with reason `tp_breach` and logs
the pnl `(41500 − 40000)·1 = 1500` — but cancels NOTHING: the
classification returns the legs under `'sl_orders'`/`'tp_orders'`
while the monitor reads `'sl_order'`/`'tp_order'`, so zero
`cancel_order` calls are made, contradicting the claim (and the
repository's own test `test_cancel_existing_orders_before_close`). -/
theorem monitor_breach_cancels_nothing :
    (Execution.get_tp_sl_orders_for_position [slC2, tpC2] "BTC/USDC").sl_orders ≠ [] ∧
    (Execution.get_tp_sl_orders_for_position [slC2, tpC2] "BTC/USDC").tp_orders ≠ [] ∧
    Main.monitor_position_step [slC2, tpC2] (fun x => x) (some marketC2) "BTC/USDC" posC2 =
      { aborted := false,
        closeCall := some ("sell", 1, "tp_breach"),
        cancelled_orders := [],
        forcedLog := some ("tp_breach", State.pyRound2 ((41500 - 40000) * 1)) } ∧
    State.pyRound2 (((41500 : ℚ) - 40000) * 1) = 1500 := by
  refine ⟨by decide, by decide, ?_, by norm_num [State.pyRound2, State.roundHalfToEven]⟩
  rfl

end HunterZ
